import Mathlib

/-
Verification of the preSLAM time-indexed pose interpolation engine.

Embedding conventions:
* C++ `double` arithmetic is idealised as exact real arithmetic (`ℝ`);
  floating-point literals such as 1e-10, 1e-9 and 0.9995 are read as the
  exact rationals they denote.
* `std::vector<TimedPose>` and `std::list<TimedPose>` are both embedded as
  `List TimedPose` (they share traversal order and element type; only their
  iterator category differs, which the shallow embedding does not track).
  `std::map<double, TimedPose>` is embedded as an ordered association list
  `List (ℝ × TimedPose)` with strictly sorted unique keys, built by repeated
  ordered insert-or-overwrite exactly as `poses_map[p.time_stamp] = p` does.
* C++ exceptions are embedded as `Except InterpError`:
  `std::invalid_argument` (empty sequence)  ↦ `InterpError.emptyTrajectory`,
  `std::out_of_range`                       ↦ `InterpError.outOfRange`,
  `std::runtime_error` (failed to find)     ↦ `InterpError.failedToFind`.
  `std::optional` return values are embedded as `Option`.
* `std::lower_bound(begin, end, target, comp)` with comparator
  `element.ts < target` is embedded by its contract: the index of the first
  element whose timestamp is not less than the target (`lowerBoundIdxP`,
  a first-index scan, which agrees with binary search on sorted input —
  every claim below constrains the trajectory to be sorted).
* Iterators of the a3 container-generic functions are embedded as indices;
  the compile-time dispatch of `getTimestampModern` / `getTimedPoseModern`
  on the element type (plain sample vs key-value pair) is embedded as an
  explicit projection record `ElemProj` with instances `vecProj` (the
  vector/list instantiation) and `mapProj` (the map instantiation).
-/

namespace Robotics

/-- Vector3 from include/pose.hpp: three real components, default (0,0,0). -/
@[ext]
structure Vector3 where
  x : ℝ
  y : ℝ
  z : ℝ

instance : Inhabited Vector3 := ⟨⟨0, 0, 0⟩⟩

/-- Componentwise vector addition, pose.hpp operator+. -/
def Vector3.add (a b : Vector3) : Vector3 := ⟨a.x + b.x, a.y + b.y, a.z + b.z⟩

/-- Componentwise vector subtraction, pose.hpp operator-. -/
def Vector3.sub (a b : Vector3) : Vector3 := ⟨a.x - b.x, a.y - b.y, a.z - b.z⟩

/-- Scalar multiplication, pose.hpp operator*(double). -/
def Vector3.smul (a : Vector3) (s : ℝ) : Vector3 := ⟨a.x * s, a.y * s, a.z * s⟩

/-- Quaternion from include/pose.hpp: w is the scalar part; the default
constructor gives the identity quaternion (1,0,0,0). -/
@[ext]
structure Quaternion where
  w : ℝ
  x : ℝ
  y : ℝ
  z : ℝ

instance : Inhabited Quaternion := ⟨⟨1, 0, 0, 0⟩⟩

/-- Squared Euclidean norm of the four components (specification helper;
the C++ computes `w*w + x*x + y*y + z*z` inline inside normalize). -/
def Quaternion.normSq (q : Quaternion) : ℝ :=
  q.w * q.w + q.x * q.x + q.y * q.y + q.z * q.z

/-- Euclidean norm, the `std::sqrt(w*w + x*x + y*y + z*z)` of
Quaternion::normalize. -/
noncomputable def Quaternion.norm (q : Quaternion) : ℝ := Real.sqrt q.normSq

/-- Quaternion::normalize from include/pose.hpp lines 61-74: divide all four
components by the norm when `norm > 1e-10`, otherwise fall back to the
identity quaternion (1,0,0,0). -/
noncomputable def Quaternion.normalize (q : Quaternion) : Quaternion :=
  if q.norm > 1e-10 then ⟨q.w / q.norm, q.x / q.norm, q.y / q.norm, q.z / q.norm⟩
  else ⟨1, 0, 0, 0⟩

/-- Pose from include/pose.hpp: position plus orientation. -/
@[ext]
structure Pose where
  position : Vector3
  orientation : Quaternion

instance : Inhabited Pose := ⟨⟨default, default⟩⟩

/-- TimedPose from include/pose.hpp: timestamp (seconds) plus pose; the
default constructor gives timestamp 0. -/
@[ext]
structure TimedPose where
  time_stamp : ℝ
  pose : Pose

instance : Inhabited TimedPose := ⟨⟨0, default⟩⟩

/-- Error taxonomy of the engine, embedding the exceptions thrown by the
locators and top-level queries. -/
inductive InterpError where
  | emptyTrajectory
  | outOfRange
  | failedToFind
deriving DecidableEq

/-- Projection of a container element to its timestamp and its sample,
embedding the compile-time dispatch of getTimestampModern/getTimedPoseModern
(a3 modern.cpp lines 34-59) and getTimestamp/getTimedPose
(a3 traditional.cpp lines 14-37). -/
structure ElemProj (α : Type) where
  ts : α → ℝ
  tp : α → TimedPose

/-- Element projection for vector/list containers: the element is the sample
itself and its timestamp is its `time_stamp` field. -/
def vecProj : ElemProj TimedPose := ⟨fun p => p.time_stamp, fun p => p⟩

/-- Element projection for map containers: the element is a key-value pair;
the key is the timestamp and the value is the sample. -/
def mapProj : ElemProj (ℝ × TimedPose) := ⟨fun e => e.1, fun e => e.2⟩

/-- Timestamp of the element at index i (out-of-bounds reads give the
default element; every use below is guarded by a bounds fact). -/
def tsAtP {α : Type} [Inhabited α] (pr : ElemProj α) (poses : List α) (i : ℕ) : ℝ :=
  pr.ts (poses.getD i default)

/-- Sample stored at index i. -/
def tpAtP {α : Type} [Inhabited α] (pr : ElemProj α) (poses : List α) (i : ℕ) : TimedPose :=
  pr.tp (poses.getD i default)

/-- Index of the first element whose timestamp is not less than the target:
the contract of `std::lower_bound(poses.begin(), poses.end(), target, comp)`
with comparator `element.ts < target` (a2 modern.cpp lines 33-34,
a3 modern.cpp lines 88-99); returns the length when every timestamp is
smaller (the end iterator). -/
noncomputable def lowerBoundIdxP {α : Type} (pr : ElemProj α) (target : ℝ) :
    List α → ℕ
  | [] => 0
  | e :: rest => if pr.ts e < target then lowerBoundIdxP pr target rest + 1 else 0

/-- The linear scan over adjacent pairs of the traditional locators
(a2 traditional.cpp lines 41-45, a3 traditional.cpp lines 75-83): starting
at index i, return the first adjacent pair (j, j+1) with
`ts j <= target < ts (j+1)`, or none when the scan falls off the end. -/
noncomputable def findBracketAuxP {α : Type} (pr : ElemProj α) (target : ℝ) :
    List α → ℕ → Option (ℕ × ℕ)
  | p :: q :: rest, i =>
      if pr.ts p ≤ target ∧ target < pr.ts q then some (i, i + 1)
      else findBracketAuxP pr target (q :: rest) (i + 1)
  | _, _ => none

/-- The traditional (linear-scan) neighbor locator, embedding both
findNeighborPoseIndices (a2 traditional.cpp lines 18-49, instantiated at
`vecProj`) and the iterator-generic findNeighborPoseIterators
(a3 traditional.cpp lines 49-87): empty check, range check, exact match at
the first or last timestamp, then linear scan for the bracketing pair, with
a terminal defensive failure. -/
noncomputable def findNeighborPoseIters {α : Type} [Inhabited α] (pr : ElemProj α)
    (poses : List α) (target : ℝ) : Except InterpError (ℕ × ℕ) :=
  match poses with
  | [] => .error .emptyTrajectory
  | _ :: _ =>
    if target < tsAtP pr poses 0 ∨ tsAtP pr poses (poses.length - 1) < target then
      .error .outOfRange
    else if target = tsAtP pr poses 0 then .ok (0, 0)
    else if target = tsAtP pr poses (poses.length - 1) then
      .ok (poses.length - 1, poses.length - 1)
    else
      match findBracketAuxP pr target poses 0 with
      | some r => .ok r
      | none => .error .failedToFind

/-- findNeighborPoseIndices from a2 traditional.cpp lines 18-49 (the
vector instantiation of the shared traditional locator). -/
noncomputable def findNeighborPoseIndices (poses : List TimedPose) (target : ℝ) :
    Except InterpError (ℕ × ℕ) :=
  findNeighborPoseIters vecProj poses target

/-- findNeighborPoseIndicesModern from a2 modern.cpp lines 18-64: empty and
range checks, lower_bound, then the four-way case analysis of the source
(begin with equal timestamp; last element with equal timestamp; any found
element with equal timestamp; otherwise the predecessor pair), ending in the
defensive nullopt. -/
noncomputable def findNeighborPoseIndicesModern (poses : List TimedPose) (target : ℝ) :
    Except InterpError (Option (ℕ × ℕ)) :=
  match poses with
  | [] => .error .emptyTrajectory
  | _ :: _ =>
    if target < tsAtP vecProj poses 0 ∨ tsAtP vecProj poses (poses.length - 1) < target then
      .error .outOfRange
    else
      let i := lowerBoundIdxP vecProj target poses
      if i = 0 ∧ tsAtP vecProj poses i = target then .ok (some (i, i))
      else if i = poses.length - 1 ∧ tsAtP vecProj poses i = target then .ok (some (i, i))
      else if i ≠ poses.length ∧ tsAtP vecProj poses i = target then .ok (some (i, i))
      else if i ≠ 0 then .ok (some (i - 1, i))
      else .ok none

/-- findNeighborPoseIteratorsModern from a3 modern.cpp lines 70-122:
empty and range checks, lower_bound, exact match on the found timestamp,
otherwise the predecessor pair after re-checking the bracketing condition,
ending in the defensive nullopt. -/
noncomputable def findNeighborPoseItersModern {α : Type} [Inhabited α] (pr : ElemProj α)
    (poses : List α) (target : ℝ) : Except InterpError (Option (ℕ × ℕ)) :=
  match poses with
  | [] => .error .emptyTrajectory
  | _ :: _ =>
    if target < tsAtP pr poses 0 ∨ tsAtP pr poses (poses.length - 1) < target then
      .error .outOfRange
    else
      let i := lowerBoundIdxP pr target poses
      let found := tsAtP pr poses i
      if found = target then .ok (some (i, i))
      else if i ≠ 0 ∧ tsAtP pr poses (i - 1) ≤ target ∧ target < found then
        .ok (some (i - 1, i))
      else .ok none

/-- Quaternion dot product, computed inline in a2 traditional.cpp line 68 and
as the dot_product lambda in a2 modern.cpp lines 96-98. -/
def dotQ (q1 q2 : Quaternion) : ℝ :=
  q1.w * q2.w + q1.x * q2.x + q1.y * q2.y + q1.z * q2.z

/-- Negation of all four components, the shortest-path sign flip of the
second quaternion. -/
def negQ (q : Quaternion) : Quaternion := ⟨-q.w, -q.x, -q.y, -q.z⟩

/-- interpolatePose from a2 traditional.cpp lines 58-102 (textually repeated
as a3 traditional.cpp lines 96-130): clamp the factor to [0,1], linearly
interpolate the position, flip the second orientation when the dot product
is negative, then blend the orientations — componentwise lerp followed by
Quaternion::normalize when the corrected dot exceeds 0.9995, true SLERP
through acos/sin otherwise. -/
noncomputable def interpolatePose (pose1 pose2 : Pose) (t : ℝ) : Pose :=
  let tc := max 0 (min 1 t)
  let interp_position := (pose1.position.smul (1 - tc)).add (pose2.position.smul tc)
  let dot0 := dotQ pose1.orientation pose2.orientation
  let q2 := if dot0 < 0 then negQ pose2.orientation else pose2.orientation
  let dot := if dot0 < 0 then -dot0 else dot0
  let interp_orientation :=
    if dot > 0.9995 then
      Quaternion.normalize
        ⟨pose1.orientation.w * (1 - tc) + q2.w * tc,
         pose1.orientation.x * (1 - tc) + q2.x * tc,
         pose1.orientation.y * (1 - tc) + q2.y * tc,
         pose1.orientation.z * (1 - tc) + q2.z * tc⟩
    else
      let angle := Real.arccos dot
      let sin_angle := Real.sin angle
      let factor1 := Real.sin ((1 - tc) * angle) / sin_angle
      let factor2 := Real.sin (tc * angle) / sin_angle
      ⟨pose1.orientation.w * factor1 + q2.w * factor2,
       pose1.orientation.x * factor1 + q2.x * factor2,
       pose1.orientation.y * factor1 + q2.y * factor2,
       pose1.orientation.z * factor1 + q2.z * factor2⟩
  ⟨interp_position, interp_orientation⟩

/-- interpolatePoseModern from a2 modern.cpp lines 73-155: the same clamp,
position lerp and shortest-path flip, but the near-parallel branch
normalizes inline — it divides by the norm only when `norm > 1e-10` and
otherwise leaves the un-normalized lerp result as is (no identity
fallback, unlike Quaternion::normalize). -/
noncomputable def interpolatePoseModern (pose1 pose2 : Pose) (t : ℝ) : Pose :=
  let tc := max 0 (min 1 t)
  let interp_position := (pose1.position.smul (1 - tc)).add (pose2.position.smul tc)
  let dot0 := dotQ pose1.orientation pose2.orientation
  let q2 := if dot0 < 0 then negQ pose2.orientation else pose2.orientation
  let dot := if dot0 < 0 then -dot0 else dot0
  let interp_orientation :=
    if dot > 0.9995 then
      let result : Quaternion :=
        ⟨pose1.orientation.w * (1 - tc) + q2.w * tc,
         pose1.orientation.x * (1 - tc) + q2.x * tc,
         pose1.orientation.y * (1 - tc) + q2.y * tc,
         pose1.orientation.z * (1 - tc) + q2.z * tc⟩
      let norm := Real.sqrt (result.w * result.w + result.x * result.x +
        result.y * result.y + result.z * result.z)
      if norm > 1e-10 then ⟨result.w / norm, result.x / norm, result.y / norm, result.z / norm⟩
      else result
    else
      let angle := Real.arccos dot
      let sin_angle := Real.sin angle
      let factor1 := Real.sin ((1 - tc) * angle) / sin_angle
      let factor2 := Real.sin (tc * angle) / sin_angle
      ⟨pose1.orientation.w * factor1 + q2.w * factor2,
       pose1.orientation.x * factor1 + q2.x * factor2,
       pose1.orientation.y * factor1 + q2.y * factor2,
       pose1.orientation.z * factor1 + q2.z * factor2⟩
  ⟨interp_position, interp_orientation⟩

/-- The orientation blend of interpolatePose factored out on an already
clamped factor (proof organisation only: `interpolatePose` computes exactly
this on its clamped factor, see interpolatePose_split below). -/
noncomputable def slerpQ (qa qb : Quaternion) (tc : ℝ) : Quaternion :=
  let dot0 := dotQ qa qb
  let q2 := if dot0 < 0 then negQ qb else qb
  let dot := if dot0 < 0 then -dot0 else dot0
  if dot > 0.9995 then
    Quaternion.normalize
      ⟨qa.w * (1 - tc) + q2.w * tc,
       qa.x * (1 - tc) + q2.x * tc,
       qa.y * (1 - tc) + q2.y * tc,
       qa.z * (1 - tc) + q2.z * tc⟩
  else
    let angle := Real.arccos dot
    let sin_angle := Real.sin angle
    let factor1 := Real.sin ((1 - tc) * angle) / sin_angle
    let factor2 := Real.sin (tc * angle) / sin_angle
    ⟨qa.w * factor1 + q2.w * factor2,
     qa.x * factor1 + q2.x * factor2,
     qa.y * factor1 + q2.y * factor2,
     qa.z * factor1 + q2.z * factor2⟩

/-- The orientation blend of interpolatePoseModern factored out on an
already clamped factor (inline normalization without identity fallback). -/
noncomputable def slerpQModern (qa qb : Quaternion) (tc : ℝ) : Quaternion :=
  let dot0 := dotQ qa qb
  let q2 := if dot0 < 0 then negQ qb else qb
  let dot := if dot0 < 0 then -dot0 else dot0
  if dot > 0.9995 then
    let result : Quaternion :=
      ⟨qa.w * (1 - tc) + q2.w * tc,
       qa.x * (1 - tc) + q2.x * tc,
       qa.y * (1 - tc) + q2.y * tc,
       qa.z * (1 - tc) + q2.z * tc⟩
    let norm := Real.sqrt (result.w * result.w + result.x * result.x +
      result.y * result.y + result.z * result.z)
    if norm > 1e-10 then ⟨result.w / norm, result.x / norm, result.y / norm, result.z / norm⟩
    else result
  else
    let angle := Real.arccos dot
    let sin_angle := Real.sin angle
    let factor1 := Real.sin ((1 - tc) * angle) / sin_angle
    let factor2 := Real.sin (tc * angle) / sin_angle
    ⟨qa.w * factor1 + q2.w * factor2,
     qa.x * factor1 + q2.x * factor2,
     qa.y * factor1 + q2.y * factor2,
     qa.z * factor1 + q2.z * factor2⟩

/-- The interpolatePoseModern of a3 modern.cpp lines 131-182: its lerp
lambda, shortest-path flip and slerp lambda compute componentwise exactly
the expressions of the traditional interpolatePose, and its near-parallel
branch calls `result.normalize()` (Quaternion::normalize, identity fallback
included), so the function it computes coincides with `interpolatePose`. -/
noncomputable def interpolatePoseModernA3 (pose1 pose2 : Pose) (t : ℝ) : Pose :=
  interpolatePose pose1 pose2 t

/-- The traditional top-level query, embedding interpolateTimedPose from
a2 traditional.cpp lines 110-130 (at `vecProj`) and the container-generic
interpolateTimedPose of a3 traditional.cpp lines 139-165: locate the
neighbors, return the stored sample on an exact hit (equal indices),
otherwise divide to obtain the factor (no near-zero-denominator guard) and
interpolate. -/
noncomputable def interpolateTimedPoseIters {α : Type} [Inhabited α] (pr : ElemProj α)
    (poses : List α) (target : ℝ) : Except InterpError TimedPose :=
  match findNeighborPoseIters pr poses target with
  | .error e => .error e
  | .ok (i1, i2) =>
    if i1 = i2 then .ok (tpAtP pr poses i1)
    else
      let t1 := tsAtP pr poses i1
      let t2 := tsAtP pr poses i2
      let t := (target - t1) / (t2 - t1)
      .ok ⟨target, interpolatePose (tpAtP pr poses i1).pose (tpAtP pr poses i2).pose t⟩

/-- interpolateTimedPose from a2 traditional.cpp lines 110-130 (the vector
instantiation of the shared traditional top-level query). -/
noncomputable def interpolateTimedPose (poses : List TimedPose) (target : ℝ) :
    Except InterpError TimedPose :=
  interpolateTimedPoseIters vecProj poses target

/-- interpolateTimedPoseModern from a2 modern.cpp lines 163-188: propagate
locator failures, raise the runtime failure when the locator returns the
empty optional, return the stored sample on equal indices, otherwise divide
(again with no near-zero-denominator guard) and interpolate. -/
noncomputable def interpolateTimedPoseModern (poses : List TimedPose) (target : ℝ) :
    Except InterpError TimedPose :=
  match findNeighborPoseIndicesModern poses target with
  | .error e => .error e
  | .ok none => .error .failedToFind
  | .ok (some (i1, i2)) =>
    if i1 = i2 then .ok (poses.getD i1 default)
    else
      let t1 := tsAtP vecProj poses i1
      let t2 := tsAtP vecProj poses i2
      let t := (target - t1) / (t2 - t1)
      .ok ⟨target, interpolatePoseModern (poses.getD i1 default).pose
        (poses.getD i2 default).pose t⟩

/-- interpolateTimedPoseModern from a3 modern.cpp lines 193-231: propagate
locator failures, raise the runtime failure on the empty optional, return
the stored sample on equal iterators, and — unlike the a2 versions — guard
the factor computation: when the two bracketing timestamps differ by less
than 1e-9 in absolute value, return the earlier sample without dividing. -/
noncomputable def interpolateTimedPoseModernA3 {α : Type} [Inhabited α] (pr : ElemProj α)
    (poses : List α) (target : ℝ) : Except InterpError TimedPose :=
  match findNeighborPoseItersModern pr poses target with
  | .error e => .error e
  | .ok none => .error .failedToFind
  | .ok (some (i1, i2)) =>
    if i1 = i2 then .ok (tpAtP pr poses i1)
    else
      let p1 := tpAtP pr poses i1
      let p2 := tpAtP pr poses i2
      let t1 := tsAtP pr poses i1
      let t2 := tsAtP pr poses i2
      if abs (t2 - t1) < 1e-9 then .ok p1
      else
        let t := (target - t1) / (t2 - t1)
        .ok ⟨target, interpolatePoseModernA3 p1.pose p2.pose t⟩

/-- Ordered insert-or-overwrite into a key-sorted association list: the
effect of `poses_map[p.time_stamp] = p` on a std::map traversal. -/
noncomputable def insertKV (key : ℝ) (v : TimedPose) :
    List (ℝ × TimedPose) → List (ℝ × TimedPose)
  | [] => [(key, v)]
  | (k, w) :: rest =>
    if key < k then (key, v) :: (k, w) :: rest
    else if key = k then (key, v) :: rest
    else (k, w) :: insertKV key v rest

/-- The map built by the a3 main functions: insert every sample keyed by its
timestamp, in trajectory order (a3 modern.cpp lines 321-324). -/
noncomputable def buildPoseMap (poses : List TimedPose) : List (ℝ × TimedPose) :=
  poses.foldl (fun m p => insertKV p.time_stamp p m) []

/-- The key-value adapter used when the trajectory backs a std::map:
a sample is stored under its timestamp as key. -/
def toKV (p : TimedPose) : ℝ × TimedPose := (p.time_stamp, p)

/-- Timestamps strictly increasing along the container, through the
projection. -/
def SortedStrictP {α : Type} (pr : ElemProj α) (l : List α) : Prop :=
  l.Pairwise (fun a b => pr.ts a < pr.ts b)

/-- Timestamps non-decreasing along the container, through the projection. -/
def SortedLeP {α : Type} (pr : ElemProj α) (l : List α) : Prop :=
  l.Pairwise (fun a b => pr.ts a ≤ pr.ts b)

/-- A trajectory with strictly increasing timestamps. -/
def StrictIncr (l : List TimedPose) : Prop := SortedStrictP vecProj l

/-- A trajectory with non-decreasing timestamps (the spec invariant). -/
def NonDecr (l : List TimedPose) : Prop := SortedLeP vecProj l

/-- A pose with the identity orientation, for demonstration trajectories. -/
def demoPose : Pose := ⟨⟨0, 0, 0⟩, ⟨1, 0, 0, 0⟩⟩

/-- A three-sample trajectory at times 0, 1, 2. -/
def demoTraj3 : List TimedPose := [⟨0, demoPose⟩, ⟨1, demoPose⟩, ⟨2, demoPose⟩]

/-- A pose whose orientation (2,0,0,0) is not a unit quaternion. -/
def demoPoseQ2 : Pose := ⟨⟨0, 0, 0⟩, ⟨2, 0, 0, 0⟩⟩

/-- A three-sample trajectory at times 0, 1, 2 whose stored orientations are
the non-unit quaternion (2,0,0,0). -/
def demoTrajC2 : List TimedPose := [⟨0, demoPoseQ2⟩, ⟨1, demoPoseQ2⟩, ⟨2, demoPoseQ2⟩]

/-- A strictly increasing trajectory whose first two timestamps differ by
1e-10, below the 1e-9 denominator guard. -/
noncomputable def demoTrajC5 : List TimedPose :=
  [⟨0, ⟨⟨0, 0, 0⟩, ⟨1, 0, 0, 0⟩⟩⟩,
   ⟨1 / 10 ^ 10, ⟨⟨1, 0, 0⟩, ⟨1, 0, 0, 0⟩⟩⟩,
   ⟨1, ⟨⟨1, 1, 0⟩, ⟨1, 0, 0, 0⟩⟩⟩]

@[simp]
lemma vecProj_ts (p : TimedPose) : vecProj.ts p = p.time_stamp := rfl

@[simp]
lemma vecProj_tp (p : TimedPose) : vecProj.tp p = p := rfl

@[simp]
lemma mapProj_ts (e : ℝ × TimedPose) : mapProj.ts e = e.1 := rfl

@[simp]
lemma mapProj_tp (e : ℝ × TimedPose) : mapProj.tp e = e.2 := rfl

@[simp]
lemma tsAtP_cons_zero {α : Type} [Inhabited α] (pr : ElemProj α) (e : α) (l : List α) :
    tsAtP pr (e :: l) 0 = pr.ts e := rfl

@[simp]
lemma tsAtP_cons_succ {α : Type} [Inhabited α] (pr : ElemProj α) (e : α) (l : List α) (i : ℕ) :
    tsAtP pr (e :: l) (i + 1) = tsAtP pr l i := rfl

@[simp]
lemma tpAtP_cons_zero {α : Type} [Inhabited α] (pr : ElemProj α) (e : α) (l : List α) :
    tpAtP pr (e :: l) 0 = pr.tp e := rfl

@[simp]
lemma tpAtP_cons_succ {α : Type} [Inhabited α] (pr : ElemProj α) (e : α) (l : List α) (i : ℕ) :
    tpAtP pr (e :: l) (i + 1) = tpAtP pr l i := rfl

lemma tsAtP_eq_get {α : Type} [Inhabited α] (pr : ElemProj α) (l : List α) (i : ℕ)
    (h : i < l.length) : tsAtP pr l i = pr.ts (l.get ⟨i, h⟩) := by
  unfold tsAtP
  rw [List.getD_eq_getElem l default h]
  simp [List.get_eq_getElem]

lemma sortedStrict_ts_lt {α : Type} [Inhabited α] {pr : ElemProj α} {l : List α}
    (hs : SortedStrictP pr l) {i j : ℕ} (hij : i < j) (hj : j < l.length) :
    tsAtP pr l i < tsAtP pr l j := by
  have hi : i < l.length := lt_trans hij hj
  rw [tsAtP_eq_get pr l i hi, tsAtP_eq_get pr l j hj]
  exact (List.pairwise_iff_get.mp hs) ⟨i, hi⟩ ⟨j, hj⟩ hij

lemma sortedLe_ts_le {α : Type} [Inhabited α] {pr : ElemProj α} {l : List α}
    (hs : SortedLeP pr l) {i j : ℕ} (hij : i ≤ j) (hj : j < l.length) :
    tsAtP pr l i ≤ tsAtP pr l j := by
  rcases lt_or_eq_of_le hij with h | h
  · have hi : i < l.length := lt_trans h hj
    rw [tsAtP_eq_get pr l i hi, tsAtP_eq_get pr l j hj]
    exact (List.pairwise_iff_get.mp hs) ⟨i, hi⟩ ⟨j, hj⟩ h
  · rw [h]

lemma strict_sortedLe {α : Type} {pr : ElemProj α} {l : List α}
    (hs : SortedStrictP pr l) : SortedLeP pr l :=
  hs.imp le_of_lt

lemma lowerBound_le_length {α : Type} (pr : ElemProj α) (target : ℝ) :
    ∀ l : List α, lowerBoundIdxP pr target l ≤ l.length
  | [] => by simp [lowerBoundIdxP]
  | e :: rest => by
    by_cases h : pr.ts e < target
    · simpa [lowerBoundIdxP, h] using lowerBound_le_length pr target rest
    · simp [lowerBoundIdxP, h]

lemma lowerBound_lt_target {α : Type} [Inhabited α] (pr : ElemProj α) (target : ℝ) :
    ∀ (l : List α) (k : ℕ), k < lowerBoundIdxP pr target l → tsAtP pr l k < target
  | [], k => by simp [lowerBoundIdxP]
  | e :: rest, k => by
    by_cases h : pr.ts e < target
    · simp only [lowerBoundIdxP, if_pos h]
      intro hk
      match k with
      | 0 => simpa using h
      | k + 1 =>
        have : k < lowerBoundIdxP pr target rest := by omega
        simpa using lowerBound_lt_target pr target rest k this
    · simp [lowerBoundIdxP, h]

lemma lowerBound_not_lt {α : Type} [Inhabited α] (pr : ElemProj α) (target : ℝ) :
    ∀ l : List α, lowerBoundIdxP pr target l < l.length →
      ¬ tsAtP pr l (lowerBoundIdxP pr target l) < target
  | [] => by simp [lowerBoundIdxP]
  | e :: rest => by
    by_cases h : pr.ts e < target
    · simp only [lowerBoundIdxP, if_pos h, List.length_cons]
      intro hl
      have : lowerBoundIdxP pr target rest < rest.length := by omega
      simpa using lowerBound_not_lt pr target rest this
    · simp [lowerBoundIdxP, h]

lemma lowerBound_eq_of {α : Type} [Inhabited α] (pr : ElemProj α) (target : ℝ)
    (l : List α) (i : ℕ) (h1 : ∀ k, k < i → tsAtP pr l k < target)
    (h2 : i < l.length) (h3 : ¬ tsAtP pr l i < target) :
    lowerBoundIdxP pr target l = i := by
  by_contra hne
  rcases Nat.lt_or_ge (lowerBoundIdxP pr target l) i with hlt | hge
  · exact lowerBound_not_lt pr target l (lt_trans hlt h2) (h1 _ hlt)
  · have : i < lowerBoundIdxP pr target l := by omega
    exact h3 (lowerBound_lt_target pr target l i this)

lemma lowerBound_lt_length {α : Type} [Inhabited α] (pr : ElemProj α) (target : ℝ)
    (l : List α) (hne : l ≠ [])
    (hlast : ¬ tsAtP pr l (l.length - 1) < target) :
    lowerBoundIdxP pr target l < l.length := by
  have hlen : 0 < l.length := List.length_pos.mpr hne
  rcases Nat.lt_or_ge (lowerBoundIdxP pr target l) l.length with h | h
  · exact h
  · exfalso
    have hle := lowerBound_le_length pr target l
    have heq : lowerBoundIdxP pr target l = l.length := le_antisymm hle h
    have : l.length - 1 < lowerBoundIdxP pr target l := by omega
    exact hlast (lowerBound_lt_target pr target l _ this)

lemma bracketAux_sound {α : Type} [Inhabited α] (pr : ElemProj α) (target : ℝ) :
    ∀ (l : List α) (i a b : ℕ), findBracketAuxP pr target l i = some (a, b) →
      i ≤ a ∧ b = a + 1 ∧ a - i + 1 < l.length ∧
      tsAtP pr l (a - i) ≤ target ∧ target < tsAtP pr l (a - i + 1)
  | [], i, a, b => by simp [findBracketAuxP]
  | [p], i, a, b => by simp [findBracketAuxP]
  | p :: q :: rest, i, a, b => by
    by_cases h : pr.ts p ≤ target ∧ target < pr.ts q
    · simp only [findBracketAuxP, if_pos h, Option.some.injEq, Prod.mk.injEq]
      rintro ⟨rfl, rfl⟩
      refine ⟨le_refl i, rfl, ?_, ?_, ?_⟩
      · simp only [List.length_cons]
        omega
      · have hz : i - i = 0 := by omega
        rw [hz, tsAtP_cons_zero]
        exact h.1
      · have ho : i - i + 1 = 0 + 1 := by omega
        rw [ho, tsAtP_cons_succ, tsAtP_cons_zero]
        exact h.2
    · simp only [findBracketAuxP, if_neg h]
      intro hrec
      obtain ⟨h1, h2, h3, h4, h5⟩ := bracketAux_sound pr target (q :: rest) (i + 1) a b hrec
      have hia : i + 1 ≤ a := h1
      refine ⟨by omega, h2, ?_, ?_, ?_⟩
      · simp only [List.length_cons] at h3 ⊢
        omega
      · have he : a - i = (a - (i + 1)) + 1 := by omega
        rw [he, tsAtP_cons_succ]
        exact h4
      · have he : a - i + 1 = (a - (i + 1) + 1) + 1 := by omega
        rw [he, tsAtP_cons_succ]
        exact h5

lemma bracketAux_progress {α : Type} [Inhabited α] (pr : ElemProj α) (target : ℝ) :
    ∀ (l : List α) (i : ℕ),
      (∃ j, j + 1 < l.length ∧ tsAtP pr l j ≤ target ∧ target < tsAtP pr l (j + 1)) →
      ∃ r, findBracketAuxP pr target l i = some r
  | [], i => by
    rintro ⟨j, hj, _⟩
    simp at hj
  | [p], i => by
    rintro ⟨j, hj, _⟩
    simp at hj
  | p :: q :: rest, i => by
    rintro ⟨j, hj, hle, hlt⟩
    by_cases h : pr.ts p ≤ target ∧ target < pr.ts q
    · exact ⟨(i, i + 1), by simp [findBracketAuxP, h]⟩
    · have hj0 : j ≠ 0 := by
        rintro rfl
        exact h ⟨by simpa using hle, by simpa using hlt⟩
      obtain ⟨j, rfl⟩ : ∃ k, j = k + 1 := ⟨j - 1, by omega⟩
      have hwit : ∃ k, k + 1 < (q :: rest).length ∧ tsAtP pr (q :: rest) k ≤ target ∧
          target < tsAtP pr (q :: rest) (k + 1) := by
        refine ⟨j, ?_, by simpa using hle, by simpa using hlt⟩
        simp only [List.length_cons] at hj ⊢
        omega
      obtain ⟨r, hr⟩ := bracketAux_progress pr target (q :: rest) (i + 1) hwit
      exact ⟨r, by simp only [findBracketAuxP, if_neg h]; exact hr⟩

lemma exists_bracket_of_sorted {α : Type} [Inhabited α] {pr : ElemProj α} :
    ∀ (l : List α), SortedLeP pr l → ∀ target : ℝ, tsAtP pr l 0 ≤ target →
      target < tsAtP pr l (l.length - 1) →
      ∃ j, j + 1 < l.length ∧ tsAtP pr l j ≤ target ∧ target < tsAtP pr l (j + 1)
  | [], _, target, h0, hlast => by simp at h0 hlast; linarith
  | [p], _, target, h0, hlast => by
    simp [tsAtP] at h0 hlast
    linarith
  | p :: q :: rest, hs, target, h0, hlast => by
    by_cases h : target < pr.ts q
    · exact ⟨0, by simp, by simpa using h0, by simpa using h⟩
    · push_neg at h
      have hs' : SortedLeP pr (q :: rest) := hs.sublist (List.sublist_cons_self p (q :: rest))
      have hlast' : target < tsAtP pr (q :: rest) ((q :: rest).length - 1) := by
        have hlen : (p :: q :: rest).length - 1 = ((q :: rest).length - 1) + 1 := by
          simp
        rw [hlen, tsAtP_cons_succ] at hlast
        exact hlast
      obtain ⟨j, hj1, hj2, hj3⟩ :=
        exists_bracket_of_sorted (q :: rest) hs' target (by simpa using h) hlast'
      refine ⟨j + 1, ?_, by simpa using hj2, by simpa using hj3⟩
      simp only [List.length_cons] at hj1 ⊢
      omega

lemma lowerBound_zero_iff {α : Type} (pr : ElemProj α) (target : ℝ) (e : α) (l : List α) :
    lowerBoundIdxP pr target (e :: l) = 0 ↔ ¬ pr.ts e < target := by
  by_cases h : pr.ts e < target <;> simp [lowerBoundIdxP, h]

lemma bracket_unique {α : Type} [Inhabited α] {pr : ElemProj α} {l : List α} {target : ℝ}
    (hs : SortedStrictP pr l) {a b : ℕ} (ha : a + 1 < l.length) (hb : b + 1 < l.length)
    (ha1 : tsAtP pr l a < target) (ha2 : target < tsAtP pr l (a + 1))
    (hb1 : tsAtP pr l b < target) (hb2 : target < tsAtP pr l (b + 1)) : a = b := by
  by_contra hne
  rcases Nat.lt_or_ge a b with h | h
  · have : a + 1 ≤ b := h
    have hle : tsAtP pr l (a + 1) ≤ tsAtP pr l b :=
      sortedLe_ts_le (strict_sortedLe hs) this (by omega)
    linarith
  · have hba : b < a := by omega
    have : b + 1 ≤ a := hba
    have hle : tsAtP pr l (b + 1) ≤ tsAtP pr l a :=
      sortedLe_ts_le (strict_sortedLe hs) this (by omega)
    linarith

lemma tradLoc_ok_of_inRange {α : Type} [Inhabited α] {pr : ElemProj α} {l : List α}
    {target : ℝ} (hs : SortedLeP pr l) (hne : l ≠ [])
    (h0 : tsAtP pr l 0 ≤ target) (h1 : target ≤ tsAtP pr l (l.length - 1)) :
    ∃ r, findNeighborPoseIters pr l target = .ok r := by
  rcases l with _ | ⟨e, rest⟩
  · exact absurd rfl hne
  · simp only [findNeighborPoseIters]
    rw [if_neg (not_or.mpr ⟨not_lt.mpr h0, not_lt.mpr h1⟩)]
    by_cases hf : target = tsAtP pr (e :: rest) 0
    · rw [if_pos hf]
      exact ⟨(0, 0), rfl⟩
    · rw [if_neg hf]
      by_cases hb : target = tsAtP pr (e :: rest) ((e :: rest).length - 1)
      · rw [if_pos hb]
        exact ⟨_, rfl⟩
      · rw [if_neg hb]
        have hlt : target < tsAtP pr (e :: rest) ((e :: rest).length - 1) :=
          lt_of_le_of_ne h1 hb
        obtain ⟨j, hj⟩ := exists_bracket_of_sorted (e :: rest) hs target h0 hlt
        obtain ⟨r, hr⟩ := bracketAux_progress pr target (e :: rest) 0 ⟨j, hj⟩
        rw [hr]
        exact ⟨r, rfl⟩

lemma tradLoc_sound {α : Type} [Inhabited α] {pr : ElemProj α} {l : List α}
    {target : ℝ} {a b : ℕ} (h : findNeighborPoseIters pr l target = .ok (a, b)) :
    (a = b ∧ ((a = 0 ∧ target = tsAtP pr l 0) ∨
              (a = l.length - 1 ∧ target = tsAtP pr l (l.length - 1)))) ∨
    (b = a + 1 ∧ a + 1 < l.length ∧ tsAtP pr l a ≤ target ∧ target < tsAtP pr l (a + 1) ∧
     target ≠ tsAtP pr l 0 ∧ target ≠ tsAtP pr l (l.length - 1)) := by
  rcases l with _ | ⟨e, rest⟩
  · simp [findNeighborPoseIters] at h
  · simp only [findNeighborPoseIters] at h
    by_cases hrange : target < tsAtP pr (e :: rest) 0 ∨
        tsAtP pr (e :: rest) ((e :: rest).length - 1) < target
    · rw [if_pos hrange] at h
      exact absurd h (by simp)
    · rw [if_neg hrange] at h
      by_cases hf : target = tsAtP pr (e :: rest) 0
      · rw [if_pos hf] at h
        injection h with h2
        injection h2 with h3 h4
        subst h3
        subst h4
        exact Or.inl ⟨rfl, Or.inl ⟨rfl, hf⟩⟩
      · rw [if_neg hf] at h
        by_cases hb : target = tsAtP pr (e :: rest) ((e :: rest).length - 1)
        · rw [if_pos hb] at h
          injection h with h2
          injection h2 with h3 h4
          subst h3
          subst h4
          exact Or.inl ⟨rfl, Or.inr ⟨rfl, hb⟩⟩
        · rw [if_neg hb] at h
          rcases haux : findBracketAuxP pr target (e :: rest) 0 with _ | ⟨a2, b2⟩ <;>
            rw [haux] at h
          · simp at h
          · injection h with h2
            injection h2 with h3 h4
            subst h3
            subst h4
            right
            obtain ⟨_, h2', h3', h4', h5'⟩ := bracketAux_sound pr target (e :: rest) 0 a2 b2 haux
            simp only [Nat.sub_zero] at h2' h3' h4' h5'
            exact ⟨h2', h3', h4', h5', hf, hb⟩

lemma tradLoc_empty_iff {α : Type} [Inhabited α] (pr : ElemProj α) (l : List α)
    (target : ℝ) :
    findNeighborPoseIters pr l target = .error .emptyTrajectory ↔ l = [] := by
  constructor
  · intro h
    rcases l with _ | ⟨e, rest⟩
    · rfl
    · exfalso
      simp only [findNeighborPoseIters] at h
      split_ifs at h <;>
        first
        | simp at h
        | (rcases haux : findBracketAuxP pr target (e :: rest) 0 with _ | r <;>
            rw [haux] at h <;> simp at h)
  · rintro rfl
    rfl

lemma tradLoc_out_iff {α : Type} [Inhabited α] (pr : ElemProj α) (l : List α)
    (target : ℝ) :
    findNeighborPoseIters pr l target = .error .outOfRange ↔
      l ≠ [] ∧ (target < tsAtP pr l 0 ∨ tsAtP pr l (l.length - 1) < target) := by
  constructor
  · intro h
    rcases l with _ | ⟨e, rest⟩
    · simp [findNeighborPoseIters] at h
    · refine ⟨by simp, ?_⟩
      simp only [findNeighborPoseIters] at h
      split_ifs at h with hrange hf hb
      · exact hrange
      all_goals
        first
        | simp at h
        | (rcases haux : findBracketAuxP pr target (e :: rest) 0 with _ | r <;>
            rw [haux] at h <;> simp at h)
  · rintro ⟨hne, hrange⟩
    rcases l with _ | ⟨e, rest⟩
    · exact absurd rfl hne
    · simp only [findNeighborPoseIters]
      rw [if_pos hrange]

lemma a2ModLoc_ok_of_inRange {l : List TimedPose} {target : ℝ} (hne : l ≠ [])
    (h0 : tsAtP vecProj l 0 ≤ target) (h1 : target ≤ tsAtP vecProj l (l.length - 1)) :
    ∃ r, findNeighborPoseIndicesModern l target = .ok (some r) := by
  rcases l with _ | ⟨e, rest⟩
  · exact absurd rfl hne
  · simp only [findNeighborPoseIndicesModern]
    rw [if_neg (not_or.mpr ⟨not_lt.mpr h0, not_lt.mpr h1⟩)]
    by_cases hi0 : lowerBoundIdxP vecProj target (e :: rest) = 0
    · have hts : tsAtP vecProj (e :: rest) (lowerBoundIdxP vecProj target (e :: rest)) = target := by
        rw [hi0]
        have := (lowerBound_zero_iff vecProj target e rest).mp hi0
        have h0' : tsAtP vecProj (e :: rest) 0 = e.time_stamp := rfl
        rw [h0']
        rw [h0'] at h0
        simp only [vecProj_ts] at this
        linarith [not_lt.mp this]
      rw [if_pos ⟨hi0, hts⟩]
      exact ⟨_, rfl⟩
    · rw [if_neg (fun hc => hi0 hc.1)]
      by_cases h2 : lowerBoundIdxP vecProj target (e :: rest) = (e :: rest).length - 1 ∧
          tsAtP vecProj (e :: rest) (lowerBoundIdxP vecProj target (e :: rest)) = target
      · rw [if_pos h2]
        exact ⟨_, rfl⟩
      · rw [if_neg h2]
        by_cases h3 : lowerBoundIdxP vecProj target (e :: rest) ≠ (e :: rest).length ∧
            tsAtP vecProj (e :: rest) (lowerBoundIdxP vecProj target (e :: rest)) = target
        · rw [if_pos h3]
          exact ⟨_, rfl⟩
        · rw [if_neg h3, if_pos hi0]
          exact ⟨_, rfl⟩

lemma a2ModLoc_exact {l : List TimedPose} {target : ℝ} (hs : StrictIncr l) {i : ℕ}
    (hi : i < l.length) (hts : tsAtP vecProj l i = target) :
    findNeighborPoseIndicesModern l target = .ok (some (i, i)) := by
  rcases l with _ | ⟨e, rest⟩
  · simp at hi
  · have h0 : tsAtP vecProj (e :: rest) 0 ≤ target := by
      rw [← hts]
      exact sortedLe_ts_le (strict_sortedLe hs) (Nat.zero_le i) hi
    have h1 : target ≤ tsAtP vecProj (e :: rest) ((e :: rest).length - 1) := by
      rw [← hts]
      exact sortedLe_ts_le (strict_sortedLe hs) (by omega) (by simp)
    have hlb : lowerBoundIdxP vecProj target (e :: rest) = i := by
      refine lowerBound_eq_of vecProj target (e :: rest) i ?_ hi ?_
      · intro k hk
        rw [← hts]
        exact sortedStrict_ts_lt hs hk hi
      · rw [hts]
        exact lt_irrefl target
    simp only [findNeighborPoseIndicesModern]
    rw [if_neg (not_or.mpr ⟨not_lt.mpr h0, not_lt.mpr h1⟩)]
    by_cases hi0 : i = 0
    · rw [if_pos ⟨by rw [hlb, hi0], by rw [hlb, hts]⟩, hlb]
    · rw [if_neg (fun hc => hi0 (hlb ▸ hc.1))]
      by_cases hilast : i = (e :: rest).length - 1
      · rw [if_pos ⟨by rw [hlb, hilast], by rw [hlb, hts]⟩, hlb]
      · rw [if_neg (fun hc => hilast (hlb ▸ hc.1)), if_pos ⟨by rw [hlb]; omega, by rw [hlb, hts]⟩,
          hlb]

lemma a2ModLoc_bracket {l : List TimedPose} {target : ℝ} (hne : l ≠ [])
    (h0 : tsAtP vecProj l 0 ≤ target) (h1 : target ≤ tsAtP vecProj l (l.length - 1))
    (hnohit : ∀ k, k < l.length → tsAtP vecProj l k ≠ target) :
    1 ≤ lowerBoundIdxP vecProj target l ∧ lowerBoundIdxP vecProj target l < l.length ∧
    tsAtP vecProj l (lowerBoundIdxP vecProj target l - 1) < target ∧
    target < tsAtP vecProj l (lowerBoundIdxP vecProj target l) ∧
    findNeighborPoseIndicesModern l target =
      .ok (some (lowerBoundIdxP vecProj target l - 1, lowerBoundIdxP vecProj target l)) := by
  rcases l with _ | ⟨e, rest⟩
  · exact absurd rfl hne
  · have hlen : (e :: rest).length - 1 < (e :: rest).length := by simp
    have hm : lowerBoundIdxP vecProj target (e :: rest) < (e :: rest).length :=
      lowerBound_lt_length vecProj target (e :: rest) (by simp) (not_lt.mpr h1)
    have hm1 : lowerBoundIdxP vecProj target (e :: rest) ≠ 0 := by
      intro hz
      have := (lowerBound_zero_iff vecProj target e rest).mp hz
      have hts0 : tsAtP vecProj (e :: rest) 0 = e.time_stamp := rfl
      have heq : e.time_stamp = target := by
        simp only [vecProj_ts] at this
        rw [hts0] at h0
        linarith [not_lt.mp this]
      exact hnohit 0 (by simp) (by rw [hts0, heq])
    have hlt1 : tsAtP vecProj (e :: rest) (lowerBoundIdxP vecProj target (e :: rest) - 1) <
        target := lowerBound_lt_target vecProj target (e :: rest) _ (by omega)
    have hlt2 : target < tsAtP vecProj (e :: rest) (lowerBoundIdxP vecProj target (e :: rest)) := by
      have hnl := lowerBound_not_lt vecProj target (e :: rest) hm
      have hneq := hnohit _ hm
      rcases lt_trichotomy (tsAtP vecProj (e :: rest) (lowerBoundIdxP vecProj target (e :: rest)))
        target with h | h | h
      · exact absurd h hnl
      · exact absurd h hneq
      · exact h
    refine ⟨by omega, hm, hlt1, hlt2, ?_⟩
    simp only [findNeighborPoseIndicesModern]
    rw [if_neg (not_or.mpr ⟨not_lt.mpr h0, not_lt.mpr h1⟩)]
    rw [if_neg (fun hc => hnohit _ hm hc.2), if_neg (fun hc => hnohit _ hm hc.2),
      if_neg (fun hc => hnohit _ hm hc.2), if_pos hm1]

lemma a3ModLoc_ok_of_inRange {α : Type} [Inhabited α] {pr : ElemProj α} {l : List α}
    {target : ℝ} (hne : l ≠ [])
    (h0 : tsAtP pr l 0 ≤ target) (h1 : target ≤ tsAtP pr l (l.length - 1)) :
    ∃ r, findNeighborPoseItersModern pr l target = .ok (some r) := by
  rcases l with _ | ⟨e, rest⟩
  · exact absurd rfl hne
  · simp only [findNeighborPoseItersModern]
    rw [if_neg (not_or.mpr ⟨not_lt.mpr h0, not_lt.mpr h1⟩)]
    by_cases hfound : tsAtP pr (e :: rest) (lowerBoundIdxP pr target (e :: rest)) = target
    · rw [if_pos hfound]
      exact ⟨_, rfl⟩
    · rw [if_neg hfound]
      have hm : lowerBoundIdxP pr target (e :: rest) < (e :: rest).length :=
        lowerBound_lt_length pr target (e :: rest) (by simp) (not_lt.mpr h1)
      have hm1 : lowerBoundIdxP pr target (e :: rest) ≠ 0 := by
        intro hz
        have := (lowerBound_zero_iff pr target e rest).mp hz
        apply hfound
        rw [hz]
        have hts0 : tsAtP pr (e :: rest) 0 = pr.ts e := rfl
        rw [hts0]
        rw [hts0] at h0
        linarith [not_lt.mp this]
      have hlt1 : tsAtP pr (e :: rest) (lowerBoundIdxP pr target (e :: rest) - 1) ≤ target :=
        le_of_lt (lowerBound_lt_target pr target (e :: rest) _ (by omega))
      have hlt2 : target < tsAtP pr (e :: rest) (lowerBoundIdxP pr target (e :: rest)) := by
        have hnl := lowerBound_not_lt pr target (e :: rest) hm
        rcases lt_trichotomy (tsAtP pr (e :: rest) (lowerBoundIdxP pr target (e :: rest)))
          target with h | h | h
        · exact absurd h hnl
        · exact absurd h hfound
        · exact h
      rw [if_pos ⟨hm1, hlt1, hlt2⟩]
      exact ⟨_, rfl⟩

lemma a3ModLoc_exact {α : Type} [Inhabited α] {pr : ElemProj α} {l : List α} {target : ℝ}
    (hs : SortedStrictP pr l) {i : ℕ}
    (hi : i < l.length) (hts : tsAtP pr l i = target) :
    findNeighborPoseItersModern pr l target = .ok (some (i, i)) := by
  rcases l with _ | ⟨e, rest⟩
  · simp at hi
  · have h0 : tsAtP pr (e :: rest) 0 ≤ target := by
      rw [← hts]
      exact sortedLe_ts_le (strict_sortedLe hs) (Nat.zero_le i) hi
    have h1 : target ≤ tsAtP pr (e :: rest) ((e :: rest).length - 1) := by
      rw [← hts]
      exact sortedLe_ts_le (strict_sortedLe hs) (by omega) (by simp)
    have hlb : lowerBoundIdxP pr target (e :: rest) = i := by
      refine lowerBound_eq_of pr target (e :: rest) i ?_ hi ?_
      · intro k hk
        rw [← hts]
        exact sortedStrict_ts_lt hs hk hi
      · rw [hts]
        exact lt_irrefl target
    simp only [findNeighborPoseItersModern]
    rw [if_neg (not_or.mpr ⟨not_lt.mpr h0, not_lt.mpr h1⟩)]
    rw [if_pos (by rw [hlb, hts]), hlb]

lemma a3ModLoc_bracket {α : Type} [Inhabited α] {pr : ElemProj α} {l : List α} {target : ℝ}
    (hne : l ≠ [])
    (h0 : tsAtP pr l 0 ≤ target) (h1 : target ≤ tsAtP pr l (l.length - 1))
    (hnohit : ∀ k, k < l.length → tsAtP pr l k ≠ target) :
    1 ≤ lowerBoundIdxP pr target l ∧ lowerBoundIdxP pr target l < l.length ∧
    tsAtP pr l (lowerBoundIdxP pr target l - 1) < target ∧
    target < tsAtP pr l (lowerBoundIdxP pr target l) ∧
    findNeighborPoseItersModern pr l target =
      .ok (some (lowerBoundIdxP pr target l - 1, lowerBoundIdxP pr target l)) := by
  rcases l with _ | ⟨e, rest⟩
  · exact absurd rfl hne
  · have hm : lowerBoundIdxP pr target (e :: rest) < (e :: rest).length :=
      lowerBound_lt_length pr target (e :: rest) (by simp) (not_lt.mpr h1)
    have hm1 : lowerBoundIdxP pr target (e :: rest) ≠ 0 := by
      intro hz
      have := (lowerBound_zero_iff pr target e rest).mp hz
      have hts0 : tsAtP pr (e :: rest) 0 = pr.ts e := rfl
      have heq : pr.ts e = target := by
        rw [hts0] at h0
        linarith [not_lt.mp this]
      exact hnohit 0 (by simp) (by rw [hts0, heq])
    have hlt1 : tsAtP pr (e :: rest) (lowerBoundIdxP pr target (e :: rest) - 1) < target :=
      lowerBound_lt_target pr target (e :: rest) _ (by omega)
    have hlt2 : target < tsAtP pr (e :: rest) (lowerBoundIdxP pr target (e :: rest)) := by
      have hnl := lowerBound_not_lt pr target (e :: rest) hm
      have hneq := hnohit _ hm
      rcases lt_trichotomy (tsAtP pr (e :: rest) (lowerBoundIdxP pr target (e :: rest)))
        target with h | h | h
      · exact absurd h hnl
      · exact absurd h hneq
      · exact h
    refine ⟨by omega, hm, hlt1, hlt2, ?_⟩
    simp only [findNeighborPoseItersModern]
    rw [if_neg (not_or.mpr ⟨not_lt.mpr h0, not_lt.mpr h1⟩)]
    rw [if_neg (hnohit _ hm), if_pos ⟨hm1, le_of_lt hlt1, hlt2⟩]

lemma clamp_nonneg (t : ℝ) : 0 ≤ max 0 (min 1 t) := le_max_left 0 _

lemma clamp_le_one (t : ℝ) : max 0 (min 1 t) ≤ 1 :=
  max_le (by norm_num) (min_le_left 1 t)

lemma clamp_idem (t : ℝ) : max 0 (min 1 (max 0 (min 1 t))) = max 0 (min 1 t) := by
  rw [min_eq_right (clamp_le_one t), max_eq_right (clamp_nonneg t)]

lemma clamp_eq_of_mem {t : ℝ} (h0 : 0 ≤ t) (h1 : t ≤ 1) : max 0 (min 1 t) = t := by
  rw [min_eq_right h1, max_eq_right h0]

lemma interpolatePose_split (p1 p2 : Pose) (t : ℝ) :
    interpolatePose p1 p2 t =
      ⟨(p1.position.smul (1 - max 0 (min 1 t))).add (p2.position.smul (max 0 (min 1 t))),
       slerpQ p1.orientation p2.orientation (max 0 (min 1 t))⟩ := rfl

lemma interpolatePoseModern_split (p1 p2 : Pose) (t : ℝ) :
    interpolatePoseModern p1 p2 t =
      ⟨(p1.position.smul (1 - max 0 (min 1 t))).add (p2.position.smul (max 0 (min 1 t))),
       slerpQModern p1.orientation p2.orientation (max 0 (min 1 t))⟩ := rfl

lemma Quaternion.normSq_nonneg (q : Quaternion) : 0 ≤ q.normSq := by
  unfold Quaternion.normSq
  nlinarith [mul_self_nonneg q.w, mul_self_nonneg q.x, mul_self_nonneg q.y, mul_self_nonneg q.z]

lemma Quaternion.norm_mul_self (q : Quaternion) : q.norm * q.norm = q.normSq := by
  unfold Quaternion.norm
  exact Real.mul_self_sqrt q.normSq_nonneg

lemma Quaternion.norm_nonneg (q : Quaternion) : 0 ≤ q.norm := Real.sqrt_nonneg _

lemma Quaternion.normalize_normSq (q : Quaternion) : q.normalize.normSq = 1 := by
  unfold Quaternion.normalize
  by_cases h : q.norm > 1e-10
  · rw [if_pos h]
    have hpos : 0 < q.norm := lt_trans (by norm_num) h
    have hns : q.normSq ≠ 0 :=
      ne_of_gt (by rw [← q.norm_mul_self]; exact mul_pos hpos hpos)
    show (q.w / q.norm) * (q.w / q.norm) + (q.x / q.norm) * (q.x / q.norm) +
        (q.y / q.norm) * (q.y / q.norm) + (q.z / q.norm) * (q.z / q.norm) = 1
    have hdiv : (q.w / q.norm) * (q.w / q.norm) + (q.x / q.norm) * (q.x / q.norm) +
        (q.y / q.norm) * (q.y / q.norm) + (q.z / q.norm) * (q.z / q.norm) =
        (q.w * q.w + q.x * q.x + q.y * q.y + q.z * q.z) / (q.norm * q.norm) := by
      ring
    rw [hdiv, q.norm_mul_self]
    show q.normSq / q.normSq = 1
    exact div_self hns
  · rw [if_neg h]
    unfold Quaternion.normSq
    norm_num

lemma Quaternion.normSq_pos_of_norm_gt {q : Quaternion} (h : q.norm > 1e-10) :
    0 < q.normSq := by
  have hpos : 0 < q.norm := lt_trans (by norm_num) h
  calc 0 < q.norm * q.norm := mul_pos hpos hpos
  _ = q.normSq := q.norm_mul_self

lemma Quaternion.normalize_of_unit {q : Quaternion} (h : q.normSq = 1) :
    q.normalize = q := by
  have hn : q.norm = 1 := by
    unfold Quaternion.norm
    rw [h, Real.sqrt_one]
  unfold Quaternion.normalize
  rw [if_pos (by rw [hn]; norm_num), hn]
  ext <;> simp

lemma dotQ_le_one {q1 q2 : Quaternion} (h1 : q1.normSq = 1) (h2 : q2.normSq = 1) :
    dotQ q1 q2 ≤ 1 := by
  unfold dotQ
  unfold Quaternion.normSq at h1 h2
  nlinarith [sq_nonneg (q1.w - q2.w), sq_nonneg (q1.x - q2.x), sq_nonneg (q1.y - q2.y),
    sq_nonneg (q1.z - q2.z)]

lemma neg_one_le_dotQ {q1 q2 : Quaternion} (h1 : q1.normSq = 1) (h2 : q2.normSq = 1) :
    -1 ≤ dotQ q1 q2 := by
  unfold dotQ
  unfold Quaternion.normSq at h1 h2
  nlinarith [sq_nonneg (q1.w + q2.w), sq_nonneg (q1.x + q2.x), sq_nonneg (q1.y + q2.y),
    sq_nonneg (q1.z + q2.z)]

lemma negQ_normSq (q : Quaternion) : (negQ q).normSq = q.normSq := by
  unfold negQ Quaternion.normSq
  ring

lemma slerp_coeff_identity (θ t : ℝ) (hs : Real.sin θ ≠ 0) :
    (Real.sin ((1 - t) * θ) / Real.sin θ) ^ 2 +
      2 * (Real.sin ((1 - t) * θ) / Real.sin θ) * (Real.sin (t * θ) / Real.sin θ) *
        Real.cos θ +
      (Real.sin (t * θ) / Real.sin θ) ^ 2 = 1 := by
  have hAB : (1 - t) * θ + t * θ = θ := by ring
  have hsin := Real.sin_add ((1 - t) * θ) (t * θ)
  have hcos := Real.cos_add ((1 - t) * θ) (t * θ)
  rw [hAB] at hsin hcos
  have hA := Real.sin_sq_add_cos_sq ((1 - t) * θ)
  have hB := Real.sin_sq_add_cos_sq (t * θ)
  have key : Real.sin ((1 - t) * θ) ^ 2 +
      2 * Real.sin ((1 - t) * θ) * Real.sin (t * θ) * Real.cos θ +
      Real.sin (t * θ) ^ 2 = Real.sin θ ^ 2 := by
    rw [hcos, hsin]
    linear_combination (-(Real.sin (t * θ) ^ 2)) * hA + (-(Real.sin ((1 - t) * θ) ^ 2)) * hB
  have hG : (Real.sin ((1 - t) * θ) / Real.sin θ) ^ 2 +
      2 * (Real.sin ((1 - t) * θ) / Real.sin θ) * (Real.sin (t * θ) / Real.sin θ) *
        Real.cos θ +
      (Real.sin (t * θ) / Real.sin θ) ^ 2 =
      (Real.sin ((1 - t) * θ) ^ 2 +
        2 * Real.sin ((1 - t) * θ) * Real.sin (t * θ) * Real.cos θ +
        Real.sin (t * θ) ^ 2) / Real.sin θ ^ 2 := by
    ring
  rw [hG, key]
  exact div_self (pow_ne_zero 2 hs)

lemma sin_arccos_pos {d : ℝ} (h0 : 0 ≤ d) (h1 : d ≤ 0.9995) :
    0 < Real.sin (Real.arccos d) := by
  rw [Real.sin_arccos]
  apply Real.sqrt_pos.mpr
  nlinarith

lemma dotQ_negQ (q1 q2 : Quaternion) : dotQ q1 (negQ q2) = -(dotQ q1 q2) := by
  unfold dotQ negQ
  ring

lemma negQ_negQ (q : Quaternion) : negQ (negQ q) = q := by
  unfold negQ
  ext <;> simp

lemma slerp_branch_normSq (qa q2 : Quaternion) (d tc : ℝ) (ha : qa.normSq = 1)
    (h2 : q2.normSq = 1) (hdot : dotQ qa q2 = d) (hd0 : 0 ≤ d) (hd1 : d ≤ 0.9995) :
    Quaternion.normSq
      ⟨qa.w * (Real.sin ((1 - tc) * Real.arccos d) / Real.sin (Real.arccos d)) +
         q2.w * (Real.sin (tc * Real.arccos d) / Real.sin (Real.arccos d)),
       qa.x * (Real.sin ((1 - tc) * Real.arccos d) / Real.sin (Real.arccos d)) +
         q2.x * (Real.sin (tc * Real.arccos d) / Real.sin (Real.arccos d)),
       qa.y * (Real.sin ((1 - tc) * Real.arccos d) / Real.sin (Real.arccos d)) +
         q2.y * (Real.sin (tc * Real.arccos d) / Real.sin (Real.arccos d)),
       qa.z * (Real.sin ((1 - tc) * Real.arccos d) / Real.sin (Real.arccos d)) +
         q2.z * (Real.sin (tc * Real.arccos d) / Real.sin (Real.arccos d))⟩ = 1 := by
  have hm1 : (-1 : ℝ) ≤ d := by linarith
  have hle1 : d ≤ 1 := by linarith
  have hcos : Real.cos (Real.arccos d) = d := Real.cos_arccos hm1 hle1
  have hsne : Real.sin (Real.arccos d) ≠ 0 := ne_of_gt (sin_arccos_pos hd0 hd1)
  have hcoeff := slerp_coeff_identity (Real.arccos d) tc hsne
  rw [hcos] at hcoeff
  unfold Quaternion.normSq at ha h2 ⊢
  unfold dotQ at hdot
  linear_combination
    ((Real.sin ((1 - tc) * Real.arccos d) / Real.sin (Real.arccos d)) ^ 2) * ha +
    ((Real.sin (tc * Real.arccos d) / Real.sin (Real.arccos d)) ^ 2) * h2 +
    (2 * (Real.sin ((1 - tc) * Real.arccos d) / Real.sin (Real.arccos d)) *
      (Real.sin (tc * Real.arccos d) / Real.sin (Real.arccos d))) * hdot + hcoeff

lemma slerpQ_normSq {qa qb : Quaternion} (ha : qa.normSq = 1) (hb : qb.normSq = 1)
    (tc : ℝ) : (slerpQ qa qb tc).normSq = 1 := by
  unfold slerpQ
  by_cases hneg : dotQ qa qb < 0
  · simp only [if_pos hneg]
    by_cases hlin : -(dotQ qa qb) > 0.9995
    · rw [if_pos hlin]
      exact Quaternion.normalize_normSq _
    · rw [if_neg hlin]
      exact slerp_branch_normSq qa (negQ qb) (-(dotQ qa qb)) tc ha
        (by rw [negQ_normSq]; exact hb) (dotQ_negQ qa qb) (by linarith)
        (not_lt.mp hlin)
  · simp only [if_neg hneg]
    by_cases hlin : dotQ qa qb > 0.9995
    · rw [if_pos hlin]
      exact Quaternion.normalize_normSq _
    · rw [if_neg hlin]
      exact slerp_branch_normSq qa qb (dotQ qa qb) tc ha hb rfl (not_lt.mp hneg)
        (not_lt.mp hlin)

lemma lerp_aggregate_normSq (qa q2 : Quaternion) (tc : ℝ) :
    (⟨qa.w * (1 - tc) + q2.w * tc, qa.x * (1 - tc) + q2.x * tc,
      qa.y * (1 - tc) + q2.y * tc, qa.z * (1 - tc) + q2.z * tc⟩ : Quaternion).normSq =
    (1 - tc) ^ 2 * qa.normSq + 2 * tc * (1 - tc) * dotQ qa q2 + tc ^ 2 * q2.normSq := by
  unfold Quaternion.normSq dotQ
  ring

lemma lerp_normSq_lower {qa q2 : Quaternion} {tc : ℝ} (ha : qa.normSq = 1)
    (h2 : q2.normSq = 1) (hd0 : 0 ≤ dotQ qa q2) (h0 : 0 ≤ tc) (h1 : tc ≤ 1) :
    (1 : ℝ) / 2 ≤
      (⟨qa.w * (1 - tc) + q2.w * tc, qa.x * (1 - tc) + q2.x * tc,
        qa.y * (1 - tc) + q2.y * tc, qa.z * (1 - tc) + q2.z * tc⟩ : Quaternion).normSq := by
  rw [lerp_aggregate_normSq, ha, h2]
  nlinarith [sq_nonneg (1 - 2 * tc),
    mul_nonneg (mul_nonneg h0 (by linarith : (0 : ℝ) ≤ 1 - tc)) hd0]

lemma inline_normalize_eq (cw cx cy cz : ℝ)
    (h : (1 : ℝ) / 2 ≤ cw * cw + cx * cx + cy * cy + cz * cz) :
    (if Real.sqrt (cw * cw + cx * cx + cy * cy + cz * cz) > 1e-10 then
       (⟨cw / Real.sqrt (cw * cw + cx * cx + cy * cy + cz * cz),
         cx / Real.sqrt (cw * cw + cx * cx + cy * cy + cz * cz),
         cy / Real.sqrt (cw * cw + cx * cx + cy * cy + cz * cz),
         cz / Real.sqrt (cw * cw + cx * cx + cy * cy + cz * cz)⟩ : Quaternion)
     else ⟨cw, cx, cy, cz⟩) = Quaternion.normalize ⟨cw, cx, cy, cz⟩ := by
  have hgt : Quaternion.norm ⟨cw, cx, cy, cz⟩ > 1e-10 := by
    have hlt : ((1e-10 : ℝ)) ^ 2 < (⟨cw, cx, cy, cz⟩ : Quaternion).normSq := by
      unfold Quaternion.normSq
      dsimp only
      nlinarith
    exact (Real.lt_sqrt (by norm_num)).mpr hlt
  have hn : Real.sqrt (cw * cw + cx * cx + cy * cy + cz * cz) =
      Quaternion.norm ⟨cw, cx, cy, cz⟩ := rfl
  rw [hn, if_pos hgt]
  unfold Quaternion.normalize
  rw [if_pos hgt]

set_option maxHeartbeats 4000000 in
lemma slerpQModern_eq {qa qb : Quaternion} (ha : qa.normSq = 1) (hb : qb.normSq = 1)
    {tc : ℝ} (h0 : 0 ≤ tc) (h1 : tc ≤ 1) : slerpQModern qa qb tc = slerpQ qa qb tc := by
  unfold slerpQ slerpQModern
  by_cases hneg : dotQ qa qb < 0
  · simp only [if_pos hneg]
    by_cases hlin : -(dotQ qa qb) > 0.9995
    · rw [if_pos hlin, if_pos hlin]
      exact inline_normalize_eq _ _ _ _ (lerp_normSq_lower ha (by rw [negQ_normSq]; exact hb)
        (by rw [dotQ_negQ]; linarith) h0 h1)
    · rw [if_neg hlin, if_neg hlin]
  · simp only [if_neg hneg]
    by_cases hlin : dotQ qa qb > 0.9995
    · rw [if_pos hlin, if_pos hlin]
      exact inline_normalize_eq _ _ _ _ (lerp_normSq_lower ha hb (not_lt.mp hneg) h0 h1)
    · rw [if_neg hlin, if_neg hlin]

lemma slerpQ_of_negQ {qa : Quaternion} (ha : qa.normSq = 1) (tc : ℝ) :
    slerpQ qa (negQ qa) tc = qa := by
  have hdot : dotQ qa (negQ qa) = -1 := by
    rw [dotQ_negQ]
    unfold dotQ
    unfold Quaternion.normSq at ha
    linarith
  unfold slerpQ
  simp only [hdot]
  simp only [if_pos (show (-1 : ℝ) < 0 by norm_num)]
  rw [if_pos (show -(-1 : ℝ) > 0.9995 by norm_num)]
  rw [negQ_negQ]
  have hcomp : (⟨qa.w * (1 - tc) + qa.w * tc, qa.x * (1 - tc) + qa.x * tc,
      qa.y * (1 - tc) + qa.y * tc, qa.z * (1 - tc) + qa.z * tc⟩ : Quaternion) = qa := by
    ext <;> ring
  rw [hcomp]
  exact Quaternion.normalize_of_unit ha

lemma lerp_position_eq (v1 v2 : Vector3) (tc : ℝ) :
    (v1.smul (1 - tc)).add (v2.smul tc) = v1.add ((v2.sub v1).smul tc) := by
  unfold Vector3.add Vector3.sub Vector3.smul
  ext <;> dsimp <;> ring

lemma tradTop_exact {α : Type} [Inhabited α] {pr : ElemProj α} {l : List α} {target : ℝ}
    {i : ℕ} (h : findNeighborPoseIters pr l target = .ok (i, i)) :
    interpolateTimedPoseIters pr l target = .ok (tpAtP pr l i) := by
  unfold interpolateTimedPoseIters
  rw [h]
  simp

lemma tradTop_bracket {α : Type} [Inhabited α] {pr : ElemProj α} {l : List α} {target : ℝ}
    {i j : ℕ} (h : findNeighborPoseIters pr l target = .ok (i, j)) (hij : i ≠ j) :
    interpolateTimedPoseIters pr l target =
      .ok ⟨target, interpolatePose (tpAtP pr l i).pose (tpAtP pr l j).pose
        ((target - tsAtP pr l i) / (tsAtP pr l j - tsAtP pr l i))⟩ := by
  unfold interpolateTimedPoseIters
  rw [h]
  dsimp only
  rw [if_neg hij]

lemma tradTop_error_iff {α : Type} [Inhabited α] (pr : ElemProj α) (l : List α)
    (target : ℝ) (err : InterpError) :
    interpolateTimedPoseIters pr l target = .error err ↔
      findNeighborPoseIters pr l target = .error err := by
  unfold interpolateTimedPoseIters
  rcases hloc : findNeighborPoseIters pr l target with e | ⟨i1, i2⟩
  · simp
  · by_cases hii : i1 = i2 <;> simp [hii]

lemma a2ModLoc_never_none (l : List TimedPose) (target : ℝ) :
    findNeighborPoseIndicesModern l target ≠ .ok none := by
  intro h
  rcases l with _ | ⟨e, rest⟩
  · simp [findNeighborPoseIndicesModern] at h
  · by_cases hrange : target < tsAtP vecProj (e :: rest) 0 ∨
        tsAtP vecProj (e :: rest) ((e :: rest).length - 1) < target
    · simp only [findNeighborPoseIndicesModern] at h
      rw [if_pos hrange] at h
      exact absurd h (by simp)
    · push_neg at hrange
      obtain ⟨r, hr⟩ := a2ModLoc_ok_of_inRange (List.cons_ne_nil e rest) hrange.1 hrange.2
      rw [hr] at h
      simp at h

lemma a3ModLoc_never_none {α : Type} [Inhabited α] (pr : ElemProj α) (l : List α)
    (target : ℝ) : findNeighborPoseItersModern pr l target ≠ .ok none := by
  intro h
  rcases l with _ | ⟨e, rest⟩
  · simp [findNeighborPoseItersModern] at h
  · by_cases hrange : target < tsAtP pr (e :: rest) 0 ∨
        tsAtP pr (e :: rest) ((e :: rest).length - 1) < target
    · simp only [findNeighborPoseItersModern] at h
      rw [if_pos hrange] at h
      exact absurd h (by simp)
    · push_neg at hrange
      obtain ⟨r, hr⟩ := a3ModLoc_ok_of_inRange (List.cons_ne_nil e rest) hrange.1 hrange.2
      rw [hr] at h
      simp at h

lemma a2ModTop_exact {l : List TimedPose} {target : ℝ} {i : ℕ}
    (h : findNeighborPoseIndicesModern l target = .ok (some (i, i))) :
    interpolateTimedPoseModern l target = .ok (l.getD i default) := by
  unfold interpolateTimedPoseModern
  rw [h]
  simp

lemma a2ModTop_bracket {l : List TimedPose} {target : ℝ} {i j : ℕ}
    (h : findNeighborPoseIndicesModern l target = .ok (some (i, j))) (hij : i ≠ j) :
    interpolateTimedPoseModern l target =
      .ok ⟨target, interpolatePoseModern (l.getD i default).pose (l.getD j default).pose
        ((target - tsAtP vecProj l i) / (tsAtP vecProj l j - tsAtP vecProj l i))⟩ := by
  unfold interpolateTimedPoseModern
  rw [h]
  dsimp only
  rw [if_neg hij]

lemma a2ModTop_error_iff (l : List TimedPose) (target : ℝ) (err : InterpError) :
    interpolateTimedPoseModern l target = .error err ↔
      findNeighborPoseIndicesModern l target = .error err := by
  unfold interpolateTimedPoseModern
  rcases hloc : findNeighborPoseIndicesModern l target with e | o
  · simp
  · rcases o with _ | ⟨i1, i2⟩
    · exact absurd hloc (a2ModLoc_never_none l target)
    · by_cases hii : i1 = i2 <;> simp [hii]

lemma a3ModTop_exact {α : Type} [Inhabited α] {pr : ElemProj α} {l : List α} {target : ℝ}
    {i : ℕ} (h : findNeighborPoseItersModern pr l target = .ok (some (i, i))) :
    interpolateTimedPoseModernA3 pr l target = .ok (tpAtP pr l i) := by
  unfold interpolateTimedPoseModernA3
  rw [h]
  simp

lemma a3ModTop_bracket_guard {α : Type} [Inhabited α] {pr : ElemProj α} {l : List α}
    {target : ℝ} {i j : ℕ}
    (h : findNeighborPoseItersModern pr l target = .ok (some (i, j))) (hij : i ≠ j)
    (hguard : abs (tsAtP pr l j - tsAtP pr l i) < 1e-9) :
    interpolateTimedPoseModernA3 pr l target = .ok (tpAtP pr l i) := by
  unfold interpolateTimedPoseModernA3
  rw [h]
  dsimp only
  rw [if_neg hij, if_pos hguard]

lemma a3ModTop_bracket_div {α : Type} [Inhabited α] {pr : ElemProj α} {l : List α}
    {target : ℝ} {i j : ℕ}
    (h : findNeighborPoseItersModern pr l target = .ok (some (i, j))) (hij : i ≠ j)
    (hguard : ¬ abs (tsAtP pr l j - tsAtP pr l i) < 1e-9) :
    interpolateTimedPoseModernA3 pr l target =
      .ok ⟨target, interpolatePoseModernA3 (tpAtP pr l i).pose (tpAtP pr l j).pose
        ((target - tsAtP pr l i) / (tsAtP pr l j - tsAtP pr l i))⟩ := by
  unfold interpolateTimedPoseModernA3
  rw [h]
  dsimp only
  rw [if_neg hij, if_neg hguard]

lemma a3ModTop_error_iff {α : Type} [Inhabited α] (pr : ElemProj α) (l : List α)
    (target : ℝ) (err : InterpError) :
    interpolateTimedPoseModernA3 pr l target = .error err ↔
      findNeighborPoseItersModern pr l target = .error err := by
  unfold interpolateTimedPoseModernA3
  rcases hloc : findNeighborPoseItersModern pr l target with e | o
  · simp
  · rcases o with _ | ⟨i1, i2⟩
    · exact absurd hloc (a3ModLoc_never_none pr l target)
    · by_cases hii : i1 = i2
      · simp [hii]
      · dsimp only
        rw [if_neg hii]
        by_cases hguard : abs (tsAtP pr l i2 - tsAtP pr l i1) < 1e-9 <;>
          simp [hguard]

section MapTransport

variable {β : Type} [Inhabited β] (pr2 : ElemProj β) (f : TimedPose → β)

lemma getD_map_default (hd : f default = default) :
    ∀ (l : List TimedPose) (i : ℕ), (l.map f).getD i default = f (l.getD i default)
  | [], i => by simp [hd]
  | e :: rest, 0 => rfl
  | e :: rest, i + 1 => by
    simp only [List.map_cons, List.getD_cons_succ]
    exact getD_map_default hd rest i

lemma tsAtP_map (hts : ∀ p, pr2.ts (f p) = p.time_stamp) (hd : f default = default)
    (l : List TimedPose) (i : ℕ) : tsAtP pr2 (l.map f) i = tsAtP vecProj l i := by
  unfold tsAtP
  rw [getD_map_default f hd]
  exact hts _

lemma tpAtP_map (htp : ∀ p, pr2.tp (f p) = p) (hd : f default = default)
    (l : List TimedPose) (i : ℕ) : tpAtP pr2 (l.map f) i = tpAtP vecProj l i := by
  unfold tpAtP
  rw [getD_map_default f hd]
  exact htp _

lemma lowerBound_map (hts : ∀ p, pr2.ts (f p) = p.time_stamp) :
    ∀ (l : List TimedPose) (target : ℝ),
      lowerBoundIdxP pr2 target (l.map f) = lowerBoundIdxP vecProj target l
  | [], _ => rfl
  | e :: rest, target => by
    simp only [List.map_cons, lowerBoundIdxP]
    rw [hts e, lowerBound_map hts rest target]
    simp only [vecProj_ts]

lemma bracketAux_map (hts : ∀ p, pr2.ts (f p) = p.time_stamp) (target : ℝ) :
    ∀ (l : List TimedPose) (i : ℕ),
      findBracketAuxP pr2 target (l.map f) i = findBracketAuxP vecProj target l i
  | [], i => rfl
  | [p], i => rfl
  | p :: q :: rest, i => by
    have IH := bracketAux_map hts target (q :: rest) (i + 1)
    simp only [List.map_cons] at IH ⊢
    simp only [findBracketAuxP]
    rw [hts p, hts q, IH]
    simp only [vecProj_ts]

lemma a3ModLoc_map (hts : ∀ p, pr2.ts (f p) = p.time_stamp) (hd : f default = default)
    (l : List TimedPose) (target : ℝ) :
    findNeighborPoseItersModern pr2 (l.map f) target =
      findNeighborPoseItersModern vecProj l target := by
  rcases l with _ | ⟨e, rest⟩
  · rfl
  · rw [List.map_cons]
    simp only [findNeighborPoseItersModern]
    rw [← List.map_cons]
    simp only [tsAtP_map pr2 f hts hd, lowerBound_map pr2 f hts, List.length_map]

lemma a3ModTop_map (hts : ∀ p, pr2.ts (f p) = p.time_stamp)
    (htp : ∀ p, pr2.tp (f p) = p) (hd : f default = default)
    (l : List TimedPose) (target : ℝ) :
    interpolateTimedPoseModernA3 pr2 (l.map f) target =
      interpolateTimedPoseModernA3 vecProj l target := by
  unfold interpolateTimedPoseModernA3
  rw [a3ModLoc_map pr2 f hts hd l target]
  rcases hloc : findNeighborPoseItersModern vecProj l target with e | o
  · simp
  · rcases o with _ | ⟨i1, i2⟩
    · simp
    · by_cases hii : i1 = i2
      · subst hii
        dsimp only
        rw [if_pos rfl, if_pos rfl, tpAtP_map pr2 f htp hd]
      · dsimp only
        rw [if_neg hii, if_neg hii]
        simp only [tsAtP_map pr2 f hts hd, tpAtP_map pr2 f htp hd]

end MapTransport

lemma insertKV_append (key : ℝ) (v : TimedPose) :
    ∀ m : List (ℝ × TimedPose), (∀ p ∈ m, p.1 < key) →
      insertKV key v m = m ++ [(key, v)]
  | [], _ => rfl
  | (k, w) :: rest, h => by
    have hk : k < key := h (k, w) (by simp)
    unfold insertKV
    rw [if_neg (by linarith : ¬ key < k),
      if_neg (by intro he; rw [he] at hk; exact lt_irrefl k hk),
      insertKV_append key v rest (fun p hp => h p (by simp [hp]))]
    simp

lemma buildPoseMap_eq : ∀ (l : List TimedPose) (acc : List (ℝ × TimedPose)),
    (∀ p ∈ acc, ∀ q ∈ l, p.1 < q.time_stamp) → StrictIncr l →
    l.foldl (fun m p => insertKV p.time_stamp p m) acc = acc ++ l.map toKV
  | [], acc, _, _ => by simp
  | e :: rest, acc, hlt, hs => by
    simp only [List.foldl_cons]
    have h1 : insertKV e.time_stamp e acc = acc ++ [(e.time_stamp, e)] :=
      insertKV_append e.time_stamp e acc (fun p hp => hlt p hp e (by simp))
    rw [h1]
    have hpc := List.pairwise_cons.mp hs
    have h2 : ∀ p ∈ acc ++ [(e.time_stamp, e)], ∀ q ∈ rest, p.1 < q.time_stamp := by
      intro p hp q hq
      rcases List.mem_append.mp hp with hp2 | hp2
      · exact hlt p hp2 q (by simp [hq])
      · have : p = (e.time_stamp, e) := by simpa using hp2
        rw [this]
        exact hpc.1 q hq
    rw [buildPoseMap_eq rest (acc ++ [(e.time_stamp, e)]) h2 hpc.2]
    simp [toKV]

lemma buildPoseMap_map {l : List TimedPose} (hs : StrictIncr l) :
    buildPoseMap l = l.map toKV := by
  unfold buildPoseMap
  rw [buildPoseMap_eq l [] (by simp) hs]
  simp

lemma tradLoc_agree {α : Type} [Inhabited α] {pr : ElemProj α} {l : List α} {target : ℝ}
    (hs : SortedStrictP pr l)
    (hnointer : ∀ k, 0 < k → k + 1 < l.length → tsAtP pr l k ≠ target) :
    findNeighborPoseItersModern pr l target =
      (findNeighborPoseIters pr l target).map some := by
  rcases l with _ | ⟨e, rest⟩
  · rfl
  · by_cases hrange : target < tsAtP pr (e :: rest) 0 ∨
        tsAtP pr (e :: rest) ((e :: rest).length - 1) < target
    · simp only [findNeighborPoseItersModern, findNeighborPoseIters]
      rw [if_pos hrange, if_pos hrange]
      rfl
    · push_neg at hrange
      obtain ⟨h0, h1⟩ := hrange
      by_cases hf : target = tsAtP pr (e :: rest) 0
      · have hmod : findNeighborPoseItersModern pr (e :: rest) target = .ok (some (0, 0)) :=
          a3ModLoc_exact hs (by simp) hf.symm
        have htrad : findNeighborPoseIters pr (e :: rest) target = .ok (0, 0) := by
          simp only [findNeighborPoseIters]
          rw [if_neg (not_or.mpr ⟨not_lt.mpr h0, not_lt.mpr h1⟩), if_pos hf]
        rw [hmod, htrad]
        rfl
      · by_cases hb : target = tsAtP pr (e :: rest) ((e :: rest).length - 1)
        · have hmod : findNeighborPoseItersModern pr (e :: rest) target =
              .ok (some ((e :: rest).length - 1, (e :: rest).length - 1)) :=
            a3ModLoc_exact hs (by simp) hb.symm
          have htrad : findNeighborPoseIters pr (e :: rest) target =
              .ok ((e :: rest).length - 1, (e :: rest).length - 1) := by
            simp only [findNeighborPoseIters]
            rw [if_neg (not_or.mpr ⟨not_lt.mpr h0, not_lt.mpr h1⟩), if_neg hf, if_pos hb]
          rw [hmod, htrad]
          rfl
        · have hnohit : ∀ k, k < (e :: rest).length → tsAtP pr (e :: rest) k ≠ target := by
            intro k hk
            rcases Nat.eq_zero_or_pos k with rfl | hkpos
            · exact fun hc => hf hc.symm
            · by_cases hklast : k = (e :: rest).length - 1
              · rw [hklast]
                exact fun hc => hb hc.symm
              · exact hnointer k hkpos (by omega)
          obtain ⟨hm1, hm2, hm3, hm4, hmod⟩ :=
            a3ModLoc_bracket (List.cons_ne_nil e rest) h0 h1 hnohit
          obtain ⟨⟨a, b⟩, htrad⟩ :=
            tradLoc_ok_of_inRange (strict_sortedLe hs) (List.cons_ne_nil e rest) h0 h1
          rcases tradLoc_sound htrad with ⟨_, hcase⟩ | ⟨hb2, hlt2, hle2, hlt3, _, _⟩
          · rcases hcase with ⟨_, hcon⟩ | ⟨_, hcon⟩
            · exact absurd hcon hf
            · exact absurd hcon hb
          · have hstrict : tsAtP pr (e :: rest) a < target :=
              lt_of_le_of_ne hle2 (hnohit a (by omega))
            have hab : a = lowerBoundIdxP pr target (e :: rest) - 1 :=
              bracket_unique hs hlt2 (by omega) hstrict hlt3 hm3
                (by rwa [Nat.sub_add_cancel hm1])
            rw [hmod, htrad, hb2, hab, Nat.sub_add_cancel hm1]
            rfl

lemma top_agree {α : Type} [Inhabited α] {pr : ElemProj α} {l : List α} {target : ℝ}
    (hs : SortedStrictP pr l)
    (hnointer : ∀ k, 0 < k → k + 1 < l.length → tsAtP pr l k ≠ target)
    (hgap : ∀ k, k + 1 < l.length → 1e-9 ≤ tsAtP pr l (k + 1) - tsAtP pr l k) :
    interpolateTimedPoseModernA3 pr l target = interpolateTimedPoseIters pr l target := by
  have hagree := tradLoc_agree hs hnointer
  rcases hloc : findNeighborPoseIters pr l target with err | ⟨i1, i2⟩
  · have hloc2 : findNeighborPoseItersModern pr l target = .error err := by
      rw [hagree, hloc]
      rfl
    rw [(a3ModTop_error_iff pr l target err).mpr hloc2,
      (tradTop_error_iff pr l target err).mpr hloc]
  · have hloc2 : findNeighborPoseItersModern pr l target = .ok (some (i1, i2)) := by
      rw [hagree, hloc]
      rfl
    by_cases hii : i1 = i2
    · subst hii
      rw [a3ModTop_exact hloc2, tradTop_exact hloc]
    · rcases tradLoc_sound hloc with ⟨hcon, _⟩ | ⟨hb2, hlt2, _, _, _, _⟩
      · exact absurd hcon hii
      · have hgap2 : ¬ abs (tsAtP pr l i2 - tsAtP pr l i1) < 1e-9 := by
          have := hgap i1 (by omega)
          rw [hb2]
          rw [abs_of_nonneg (by linarith)]
          linarith
        rw [a3ModTop_bracket_div hloc2 hii hgap2, tradTop_bracket hloc hii]
        rfl

lemma Quaternion.norm_eq_one {q : Quaternion} (h : q.normSq = 1) : q.norm = 1 := by
  unfold Quaternion.norm
  rw [h, Real.sqrt_one]

lemma lastIdx_lt_length {α : Type} {l : List α} (hne : l ≠ []) : l.length - 1 < l.length := by
  have : 0 < l.length := List.length_pos.mpr hne
  omega

lemma tradLoc_ok_inRange_iff {α : Type} [Inhabited α] (pr : ElemProj α) (l : List α)
    (target : ℝ) (hs : SortedLeP pr l) :
    (∃ r, findNeighborPoseIters pr l target = .ok r) ↔
      l ≠ [] ∧ tsAtP pr l 0 ≤ target ∧ target ≤ tsAtP pr l (l.length - 1) := by
  constructor
  · rintro ⟨r, hr⟩
    rcases l with _ | ⟨e, rest⟩
    · simp [findNeighborPoseIters] at hr
    · refine ⟨by simp, ?_⟩
      by_cases hrange : target < tsAtP pr (e :: rest) 0 ∨
          tsAtP pr (e :: rest) ((e :: rest).length - 1) < target
      · simp only [findNeighborPoseIters] at hr
        rw [if_pos hrange] at hr
        simp at hr
      · push_neg at hrange
        exact hrange
  · rintro ⟨hne, h0, h1⟩
    exact tradLoc_ok_of_inRange hs hne h0 h1

lemma a2ModLoc_ok_inRange_iff (l : List TimedPose) (target : ℝ) :
    (∃ r, findNeighborPoseIndicesModern l target = .ok (some r)) ↔
      l ≠ [] ∧ tsAtP vecProj l 0 ≤ target ∧
        target ≤ tsAtP vecProj l (l.length - 1) := by
  constructor
  · rintro ⟨r, hr⟩
    rcases l with _ | ⟨e, rest⟩
    · simp [findNeighborPoseIndicesModern] at hr
    · refine ⟨by simp, ?_⟩
      by_cases hrange : target < tsAtP vecProj (e :: rest) 0 ∨
          tsAtP vecProj (e :: rest) ((e :: rest).length - 1) < target
      · simp only [findNeighborPoseIndicesModern] at hr
        rw [if_pos hrange] at hr
        simp at hr
      · push_neg at hrange
        exact hrange
  · rintro ⟨hne, h0, h1⟩
    exact a2ModLoc_ok_of_inRange hne h0 h1

lemma a2ModLoc_empty_iff (l : List TimedPose) (target : ℝ) :
    findNeighborPoseIndicesModern l target = .error .emptyTrajectory ↔ l = [] := by
  constructor
  · intro h
    rcases l with _ | ⟨e, rest⟩
    · rfl
    · exfalso
      simp only [findNeighborPoseIndicesModern] at h
      split_ifs at h <;> simp at h
  · rintro rfl
    rfl

lemma a2ModLoc_out_iff (l : List TimedPose) (target : ℝ) :
    findNeighborPoseIndicesModern l target = .error .outOfRange ↔
      l ≠ [] ∧ (target < tsAtP vecProj l 0 ∨
        tsAtP vecProj l (l.length - 1) < target) := by
  constructor
  · intro h
    rcases l with _ | ⟨e, rest⟩
    · simp [findNeighborPoseIndicesModern] at h
    · refine ⟨by simp, ?_⟩
      by_contra hcon
      simp only [findNeighborPoseIndicesModern] at h
      rw [if_neg hcon] at h
      split_ifs at h <;> simp at h
  · rintro ⟨hne, hrange⟩
    rcases l with _ | ⟨e, rest⟩
    · exact absurd rfl hne
    · simp only [findNeighborPoseIndicesModern]
      rw [if_pos hrange]

lemma tradLoc_front {α : Type} [Inhabited α] {pr : ElemProj α} {l : List α}
    (hs : SortedLeP pr l) (hne : l ≠ []) :
    findNeighborPoseIters pr l (tsAtP pr l 0) = .ok (0, 0) := by
  rcases l with _ | ⟨e, rest⟩
  · exact absurd rfl hne
  · simp only [findNeighborPoseIters]
    rw [if_neg (not_or.mpr ⟨lt_irrefl _,
      not_lt.mpr (sortedLe_ts_le hs (Nat.zero_le _) (by simp))⟩)]
    simp

lemma tradLoc_back {α : Type} [Inhabited α] {pr : ElemProj α} {l : List α}
    (hs : SortedStrictP pr l) (hne : l ≠ []) :
    findNeighborPoseIters pr l (tsAtP pr l (l.length - 1)) =
      .ok (l.length - 1, l.length - 1) := by
  rcases l with _ | ⟨e, rest⟩
  · exact absurd rfl hne
  · simp only [findNeighborPoseIters]
    rw [if_neg (not_or.mpr ⟨not_lt.mpr
      (sortedLe_ts_le (strict_sortedLe hs) (Nat.zero_le _) (by simp)), lt_irrefl _⟩)]
    by_cases h0 : (e :: rest).length - 1 = 0
    · rw [h0, if_pos rfl]
    · have hlt : tsAtP pr (e :: rest) 0 < tsAtP pr (e :: rest) ((e :: rest).length - 1) :=
        sortedStrict_ts_lt hs (by omega) (by simp)
      rw [if_neg (by intro hc; rw [hc] at hlt; exact lt_irrefl _ hlt)]
      simp

lemma demoTraj3_strict : StrictIncr demoTraj3 := by
  norm_num [StrictIncr, SortedStrictP, demoTraj3, demoPose, List.pairwise_cons]

lemma demoTraj3_nonDecr : NonDecr demoTraj3 := by
  norm_num [NonDecr, SortedLeP, demoTraj3, demoPose, List.pairwise_cons]

lemma demoTraj3_ts0 : tsAtP vecProj demoTraj3 0 = 0 := by
  norm_num [tsAtP, vecProj, demoTraj3]

lemma demoTraj3_ts1 : tsAtP vecProj demoTraj3 1 = 1 := by
  norm_num [tsAtP, vecProj, demoTraj3]

lemma demoTraj3_tsLast : tsAtP vecProj demoTraj3 (demoTraj3.length - 1) = 2 := by
  norm_num [tsAtP, vecProj, demoTraj3]

lemma demoTraj3_locTrad : findNeighborPoseIndices demoTraj3 1 = .ok (1, 2) := by
  norm_num [findNeighborPoseIndices, findNeighborPoseIters, findBracketAuxP,
    tsAtP, vecProj, demoTraj3]

lemma demoTrajC2_strict : StrictIncr demoTrajC2 := by
  norm_num [StrictIncr, SortedStrictP, demoTrajC2, demoPoseQ2, List.pairwise_cons]

lemma demoTrajC2_ts1 : tsAtP vecProj demoTrajC2 1 = 1 := by
  norm_num [tsAtP, vecProj, demoTrajC2]

lemma demoTrajC2_locTrad : findNeighborPoseIndices demoTrajC2 1 = .ok (1, 2) := by
  norm_num [findNeighborPoseIndices, findNeighborPoseIters, findBracketAuxP,
    tsAtP, vecProj, demoTrajC2]

lemma sqrt_four : Real.sqrt 4 = 2 := by
  rw [show (4 : ℝ) = 2 ^ 2 by norm_num, Real.sqrt_sq (by norm_num : (0 : ℝ) ≤ 2)]

lemma demoTrajC2_topTrad :
    interpolateTimedPose demoTrajC2 1 = .ok ⟨1, ⟨⟨0, 0, 0⟩, ⟨1, 0, 0, 0⟩⟩⟩ := by
  have hloc : findNeighborPoseIters vecProj demoTrajC2 1 = .ok (1, 2) := demoTrajC2_locTrad
  have htop := tradTop_bracket hloc (by norm_num)
  rw [show interpolateTimedPose demoTrajC2 1 = interpolateTimedPoseIters vecProj demoTrajC2 1
    from rfl, htop]
  have hts1 : tsAtP vecProj demoTrajC2 1 = 1 := demoTrajC2_ts1
  have hts2 : tsAtP vecProj demoTrajC2 2 = 2 := by norm_num [tsAtP, vecProj, demoTrajC2]
  have htp1 : tpAtP vecProj demoTrajC2 1 = ⟨1, demoPoseQ2⟩ := by
    norm_num [tpAtP, vecProj, demoTrajC2]
  have htp2 : tpAtP vecProj demoTrajC2 2 = ⟨2, demoPoseQ2⟩ := by
    norm_num [tpAtP, vecProj, demoTrajC2]
  rw [hts1, hts2, htp1, htp2]
  have ht : ((1 : ℝ) - 1) / (2 - 1) = 0 := by norm_num
  rw [ht]
  dsimp only
  have hpose : interpolatePose demoPoseQ2 demoPoseQ2 0 = ⟨⟨0, 0, 0⟩, ⟨1, 0, 0, 0⟩⟩ := by
    rw [interpolatePose_split]
    have hclamp : max 0 (min 1 (0 : ℝ)) = 0 := by norm_num
    rw [hclamp]
    have hpos : (demoPoseQ2.position.smul (1 - 0)).add (demoPoseQ2.position.smul 0) =
        (⟨0, 0, 0⟩ : Vector3) := by
      norm_num [demoPoseQ2, Vector3.add, Vector3.smul, Vector3.mk.injEq]
    have hq : slerpQ demoPoseQ2.orientation demoPoseQ2.orientation 0 =
        (⟨1, 0, 0, 0⟩ : Quaternion) := by
      norm_num [demoPoseQ2, slerpQ, dotQ, negQ, Quaternion.normalize, Quaternion.norm,
        Quaternion.normSq, sqrt_four, Quaternion.mk.injEq]
    rw [hpos, hq]
  rw [hpose]

lemma demoTrajC2_locA3Mod :
    findNeighborPoseItersModern vecProj demoTrajC2 1 = .ok (some (1, 1)) :=
  a3ModLoc_exact demoTrajC2_strict (by norm_num [demoTrajC2]) demoTrajC2_ts1

lemma demoTrajC2_topA3Mod :
    interpolateTimedPoseModernA3 vecProj demoTrajC2 1 = .ok ⟨1, demoPoseQ2⟩ := by
  rw [a3ModTop_exact demoTrajC2_locA3Mod]
  norm_num [tpAtP, vecProj, demoTrajC2]

lemma demoTrajC5_strict : StrictIncr demoTrajC5 := by
  norm_num [StrictIncr, SortedStrictP, demoTrajC5, List.pairwise_cons]

lemma demoTrajC5_ts0 : tsAtP vecProj demoTrajC5 0 = 0 := by
  norm_num [tsAtP, vecProj, demoTrajC5]

lemma demoTrajC5_ts1 : tsAtP vecProj demoTrajC5 1 = 1 / 10 ^ 10 := by
  norm_num [tsAtP, vecProj, demoTrajC5]

lemma demoTrajC5_gap :
    tsAtP vecProj demoTrajC5 1 - tsAtP vecProj demoTrajC5 0 < 1e-9 := by
  rw [demoTrajC5_ts0, demoTrajC5_ts1]
  norm_num

lemma demoTrajC5_locTrad :
    findNeighborPoseIndices demoTrajC5 (1 / 20000000000) = .ok (0, 1) := by
  norm_num [findNeighborPoseIndices, findNeighborPoseIters, findBracketAuxP,
    tsAtP, vecProj, demoTrajC5]

lemma demoTrajC5_locA3Mod :
    findNeighborPoseItersModern vecProj demoTrajC5 (1 / 20000000000) =
      .ok (some (0, 1)) := by
  norm_num [findNeighborPoseItersModern, lowerBoundIdxP, tsAtP, vecProj, demoTrajC5]

lemma demoTrajC5_topTrad :
    interpolateTimedPose demoTrajC5 (1 / 20000000000) =
      .ok ⟨1 / 20000000000, ⟨⟨1 / 2, 0, 0⟩, ⟨1, 0, 0, 0⟩⟩⟩ := by
  have hloc : findNeighborPoseIters vecProj demoTrajC5 (1 / 20000000000) = .ok (0, 1) :=
    demoTrajC5_locTrad
  have htop := tradTop_bracket hloc (by norm_num)
  rw [show interpolateTimedPose demoTrajC5 (1 / 20000000000) =
    interpolateTimedPoseIters vecProj demoTrajC5 (1 / 20000000000) from rfl, htop]
  have htp0 : tpAtP vecProj demoTrajC5 0 = ⟨0, ⟨⟨0, 0, 0⟩, ⟨1, 0, 0, 0⟩⟩⟩ := by
    norm_num [tpAtP, vecProj, demoTrajC5]
  have htp1 : tpAtP vecProj demoTrajC5 1 = ⟨1 / 10 ^ 10, ⟨⟨1, 0, 0⟩, ⟨1, 0, 0, 0⟩⟩⟩ := by
    norm_num [tpAtP, vecProj, demoTrajC5]
  rw [demoTrajC5_ts0, demoTrajC5_ts1, htp0, htp1]
  have ht : ((1 : ℝ) / 20000000000 - 0) / (1 / 10 ^ 10 - 0) = 1 / 2 := by norm_num
  rw [ht]
  dsimp only
  have hpose : interpolatePose (⟨⟨0, 0, 0⟩, ⟨1, 0, 0, 0⟩⟩ : Pose)
      (⟨⟨1, 0, 0⟩, ⟨1, 0, 0, 0⟩⟩ : Pose) (1 / 2) =
      ⟨⟨1 / 2, 0, 0⟩, ⟨1, 0, 0, 0⟩⟩ := by
    rw [interpolatePose_split]
    have hclamp : max 0 (min 1 ((1 : ℝ) / 2)) = 1 / 2 := by norm_num
    rw [hclamp]
    have hpos : ((⟨0, 0, 0⟩ : Vector3).smul (1 - 1 / 2)).add
        ((⟨1, 0, 0⟩ : Vector3).smul (1 / 2)) = (⟨1 / 2, 0, 0⟩ : Vector3) := by
      norm_num [Vector3.add, Vector3.smul, Vector3.mk.injEq]
    have hq : slerpQ (⟨1, 0, 0, 0⟩ : Quaternion) ⟨1, 0, 0, 0⟩ (1 / 2) =
        (⟨1, 0, 0, 0⟩ : Quaternion) := by
      norm_num [slerpQ, dotQ, negQ, Quaternion.normalize, Quaternion.norm,
        Quaternion.normSq, Real.sqrt_one, Quaternion.mk.injEq]
    dsimp only
    rw [hpos, hq]
  rw [hpose]

/-- C8: for every pair of poses and every real factor t, both pose
interpolators return the same result on t as on max(0, min(1, t)): factors
outside [0,1] are silently clamped before any use, never rejected. -/
theorem C8_factor_clamped (pose1 pose2 : Pose) (t : ℝ) :
    interpolatePose pose1 pose2 t = interpolatePose pose1 pose2 (max 0 (min 1 t)) ∧
    interpolatePoseModern pose1 pose2 t =
      interpolatePoseModern pose1 pose2 (max 0 (min 1 t)) := by
  constructor
  · rw [interpolatePose_split, interpolatePose_split, clamp_idem]
  · rw [interpolatePoseModern_split, interpolatePoseModern_split, clamp_idem]

/-- C9 counterexample: the claim says normalize divides whenever the norm is
not below 1e-10, but at norm exactly 1e-10 the code takes the identity
fallback (its condition is norm > 1e-10): on q = (0, 1e-10, 0, 0) the norm
equals 1e-10 (not below), yet normalize returns (1,0,0,0) instead of the
claimed q divided by its norm, which would be (0,1,0,0). -/
theorem C9_counterexample :
    Quaternion.norm ⟨0, 1e-10, 0, 0⟩ = 1e-10 ∧
    ¬ Quaternion.norm ⟨0, 1e-10, 0, 0⟩ < 1e-10 ∧
    Quaternion.normalize ⟨0, 1e-10, 0, 0⟩ = ⟨1, 0, 0, 0⟩ ∧
    (⟨0 / (1e-10 : ℝ), (1e-10 : ℝ) / 1e-10, 0 / (1e-10 : ℝ), 0 / (1e-10 : ℝ)⟩ :
      Quaternion) = ⟨0, 1, 0, 0⟩ ∧
    (⟨1, 0, 0, 0⟩ : Quaternion) ≠ ⟨0, 1, 0, 0⟩ := by
  have hn : Quaternion.norm ⟨0, 1e-10, 0, 0⟩ = 1e-10 := by
    unfold Quaternion.norm Quaternion.normSq
    dsimp only
    rw [show (0 : ℝ) * 0 + 1e-10 * 1e-10 + 0 * 0 + 0 * 0 = ((1e-10 : ℝ)) ^ 2 by ring]
    exact Real.sqrt_sq (by norm_num)
  refine ⟨hn, by rw [hn]; exact lt_irrefl _, ?_, ?_, ?_⟩
  · unfold Quaternion.normalize
    rw [hn, if_neg (by norm_num)]
  · norm_num [Quaternion.mk.injEq]
  · norm_num [Quaternion.mk.injEq]

/-- C9 (amended): Quaternion::normalize produces the identity quaternion
(1,0,0,0) when the norm is at or below the epsilon 1e-10 (the code divides
only when norm > 1e-10, so the boundary norm = 1e-10 also falls back), and
when the norm exceeds 1e-10 it produces q divided by its norm, which has
unit norm. -/
theorem C9_amended (q : Quaternion) :
    (q.norm ≤ 1e-10 → q.normalize = ⟨1, 0, 0, 0⟩) ∧
    (1e-10 < q.norm →
      q.normalize = ⟨q.w / q.norm, q.x / q.norm, q.y / q.norm, q.z / q.norm⟩ ∧
      q.normalize.normSq = 1) := by
  constructor
  · intro h
    unfold Quaternion.normalize
    rw [if_neg (not_lt.mpr h)]
  · intro h
    refine ⟨?_, Quaternion.normalize_normSq q⟩
    unfold Quaternion.normalize
    rw [if_pos h]

/-- C9 witness: the amended normalize contract evaluated at (2,0,0,0),
whose norm is 2. -/
theorem C9_witness :
    (1e-10 : ℝ) < Quaternion.norm ⟨2, 0, 0, 0⟩ ∧
    Quaternion.normalize ⟨2, 0, 0, 0⟩ =
      ⟨2 / Quaternion.norm ⟨2, 0, 0, 0⟩, 0 / Quaternion.norm ⟨2, 0, 0, 0⟩,
       0 / Quaternion.norm ⟨2, 0, 0, 0⟩, 0 / Quaternion.norm ⟨2, 0, 0, 0⟩⟩ ∧
    (Quaternion.normalize ⟨2, 0, 0, 0⟩).normSq = 1 := by
  have hn : Quaternion.norm ⟨2, 0, 0, 0⟩ = 2 := by
    unfold Quaternion.norm Quaternion.normSq
    dsimp only
    rw [show (2 : ℝ) * 2 + 0 * 0 + 0 * 0 + 0 * 0 = 4 by ring]
    exact sqrt_four
  have hgt : (1e-10 : ℝ) < Quaternion.norm ⟨2, 0, 0, 0⟩ := by
    rw [hn]
    norm_num
  obtain ⟨h1, h2⟩ := (C9_amended ⟨2, 0, 0, 0⟩).2 hgt
  exact ⟨hgt, h1, h2⟩

/-- C6: interpolating a pose whose unit orientation is q against a pose
whose orientation is −q, at any factor strictly between 0 and 1, yields
orientation exactly q (the sign flip selects the zero-length path) — in
both the traditional and the a2 modern interpolators. -/
theorem C6_shortest_path (pose1 pose2 : Pose) (t : ℝ)
    (hunit : pose1.orientation.normSq = 1)
    (hneg : pose2.orientation = negQ pose1.orientation)
    (h0 : 0 < t) (h1 : t < 1) :
    (interpolatePose pose1 pose2 t).orientation = pose1.orientation ∧
    (interpolatePoseModern pose1 pose2 t).orientation = pose1.orientation := by
  constructor
  · rw [interpolatePose_split]
    dsimp only
    rw [hneg]
    exact slerpQ_of_negQ hunit _
  · rw [interpolatePoseModern_split]
    dsimp only
    rw [hneg, slerpQModern_eq hunit (by rw [negQ_normSq]; exact hunit)
      (clamp_nonneg t) (clamp_le_one t)]
    exact slerpQ_of_negQ hunit _

/-- C6 witness: q = (1,0,0,0) against −q at factor 1/2. -/
theorem C6_witness :
    (⟨⟨0, 0, 0⟩, ⟨1, 0, 0, 0⟩⟩ : Pose).orientation.normSq = 1 ∧
    (⟨⟨0, 0, 0⟩, ⟨-1, 0, 0, 0⟩⟩ : Pose).orientation =
      negQ (⟨⟨0, 0, 0⟩, ⟨1, 0, 0, 0⟩⟩ : Pose).orientation ∧
    (0 : ℝ) < 1 / 2 ∧ (1 / 2 : ℝ) < 1 ∧
    (interpolatePose ⟨⟨0, 0, 0⟩, ⟨1, 0, 0, 0⟩⟩ ⟨⟨0, 0, 0⟩, ⟨-1, 0, 0, 0⟩⟩
      (1 / 2)).orientation = ⟨1, 0, 0, 0⟩ ∧
    (interpolatePoseModern ⟨⟨0, 0, 0⟩, ⟨1, 0, 0, 0⟩⟩ ⟨⟨0, 0, 0⟩, ⟨-1, 0, 0, 0⟩⟩
      (1 / 2)).orientation = ⟨1, 0, 0, 0⟩ := by
  have h1 : (⟨⟨0, 0, 0⟩, ⟨1, 0, 0, 0⟩⟩ : Pose).orientation.normSq = 1 := by
    norm_num [Quaternion.normSq]
  have h2 : (⟨⟨0, 0, 0⟩, ⟨-1, 0, 0, 0⟩⟩ : Pose).orientation =
      negQ (⟨⟨0, 0, 0⟩, ⟨1, 0, 0, 0⟩⟩ : Pose).orientation := by
    norm_num [negQ, Quaternion.mk.injEq]
  obtain ⟨ha, hb⟩ := C6_shortest_path ⟨⟨0, 0, 0⟩, ⟨1, 0, 0, 0⟩⟩
    ⟨⟨0, 0, 0⟩, ⟨-1, 0, 0, 0⟩⟩ (1 / 2) h1 h2 (by norm_num) (by norm_num)
  exact ⟨h1, h2, by norm_num, by norm_num, ha, hb⟩

/-- C7: for unit input orientations and a factor in [0,1], both
interpolators return an orientation of exactly unit norm (in exact real
arithmetic, in both the near-parallel linear branch and the SLERP branch)
and a position on the straight segment between the input positions at
fraction t. -/
theorem C7_unit_norm_and_segment (pose1 pose2 : Pose) (t : ℝ)
    (h1 : pose1.orientation.normSq = 1) (h2 : pose2.orientation.normSq = 1)
    (ht0 : 0 ≤ t) (ht1 : t ≤ 1) :
    ((interpolatePose pose1 pose2 t).orientation.norm = 1 ∧
     (interpolatePose pose1 pose2 t).position =
       pose1.position.add ((pose2.position.sub pose1.position).smul t)) ∧
    ((interpolatePoseModern pose1 pose2 t).orientation.norm = 1 ∧
     (interpolatePoseModern pose1 pose2 t).position =
       pose1.position.add ((pose2.position.sub pose1.position).smul t)) := by
  have hc : max 0 (min 1 t) = t := clamp_eq_of_mem ht0 ht1
  refine ⟨⟨?_, ?_⟩, ⟨?_, ?_⟩⟩
  · rw [interpolatePose_split]
    dsimp only
    exact Quaternion.norm_eq_one (slerpQ_normSq h1 h2 _)
  · rw [interpolatePose_split]
    dsimp only
    rw [hc]
    exact lerp_position_eq _ _ _
  · rw [interpolatePoseModern_split]
    dsimp only
    rw [slerpQModern_eq h1 h2 (clamp_nonneg t) (clamp_le_one t)]
    exact Quaternion.norm_eq_one (slerpQ_normSq h1 h2 _)
  · rw [interpolatePoseModern_split]
    dsimp only
    rw [hc]
    exact lerp_position_eq _ _ _

/-- C7 witness: unit orientations (1,0,0,0) and (0,1,0,0) at factor 1/2. -/
theorem C7_witness :
    (⟨⟨0, 0, 0⟩, ⟨1, 0, 0, 0⟩⟩ : Pose).orientation.normSq = 1 ∧
    (⟨⟨2, 0, 0⟩, ⟨0, 1, 0, 0⟩⟩ : Pose).orientation.normSq = 1 ∧
    (0 : ℝ) ≤ 1 / 2 ∧ (1 / 2 : ℝ) ≤ 1 ∧
    (interpolatePose ⟨⟨0, 0, 0⟩, ⟨1, 0, 0, 0⟩⟩ ⟨⟨2, 0, 0⟩, ⟨0, 1, 0, 0⟩⟩
      (1 / 2)).orientation.norm = 1 ∧
    (interpolatePose ⟨⟨0, 0, 0⟩, ⟨1, 0, 0, 0⟩⟩ ⟨⟨2, 0, 0⟩, ⟨0, 1, 0, 0⟩⟩
      (1 / 2)).position =
      (⟨⟨0, 0, 0⟩, ⟨1, 0, 0, 0⟩⟩ : Pose).position.add
        (((⟨⟨2, 0, 0⟩, ⟨0, 1, 0, 0⟩⟩ : Pose).position.sub
          (⟨⟨0, 0, 0⟩, ⟨1, 0, 0, 0⟩⟩ : Pose).position).smul (1 / 2)) ∧
    (interpolatePoseModern ⟨⟨0, 0, 0⟩, ⟨1, 0, 0, 0⟩⟩ ⟨⟨2, 0, 0⟩, ⟨0, 1, 0, 0⟩⟩
      (1 / 2)).orientation.norm = 1 := by
  have h1 : (⟨⟨0, 0, 0⟩, ⟨1, 0, 0, 0⟩⟩ : Pose).orientation.normSq = 1 := by
    norm_num [Quaternion.normSq]
  have h2 : (⟨⟨2, 0, 0⟩, ⟨0, 1, 0, 0⟩⟩ : Pose).orientation.normSq = 1 := by
    norm_num [Quaternion.normSq]
  obtain ⟨⟨ha, hb⟩, ⟨hc, _⟩⟩ := C7_unit_norm_and_segment ⟨⟨0, 0, 0⟩, ⟨1, 0, 0, 0⟩⟩
    ⟨⟨2, 0, 0⟩, ⟨0, 1, 0, 0⟩⟩ (1 / 2) h1 h2 (by norm_num) (by norm_num)
  exact ⟨h1, h2, by norm_num, by norm_num, ha, hb, hc⟩

/-- C4: on a non-decreasing trajectory, both neighbor locators fail with
EmptyTrajectory exactly on the empty trajectory, fail with OutOfRange
exactly when the query is strictly below the first or strictly above the
last timestamp of a non-empty trajectory, succeed exactly on in-range
queries of a non-empty trajectory (so querying the first or last timestamp
never fails), and both top-level queries propagate the locator errors
unchanged. -/
theorem C4_error_contract (poses : List TimedPose) (target : ℝ) (hs : NonDecr poses) :
    (findNeighborPoseIndices poses target = .error .emptyTrajectory ↔ poses = []) ∧
    (findNeighborPoseIndicesModern poses target = .error .emptyTrajectory ↔ poses = []) ∧
    (findNeighborPoseIndices poses target = .error .outOfRange ↔
      poses ≠ [] ∧ (target < tsAtP vecProj poses 0 ∨
        tsAtP vecProj poses (poses.length - 1) < target)) ∧
    (findNeighborPoseIndicesModern poses target = .error .outOfRange ↔
      poses ≠ [] ∧ (target < tsAtP vecProj poses 0 ∨
        tsAtP vecProj poses (poses.length - 1) < target)) ∧
    ((∃ r, findNeighborPoseIndices poses target = .ok r) ↔
      poses ≠ [] ∧ tsAtP vecProj poses 0 ≤ target ∧
        target ≤ tsAtP vecProj poses (poses.length - 1)) ∧
    ((∃ r, findNeighborPoseIndicesModern poses target = .ok (some r)) ↔
      poses ≠ [] ∧ tsAtP vecProj poses 0 ≤ target ∧
        target ≤ tsAtP vecProj poses (poses.length - 1)) ∧
    (poses ≠ [] →
      (target = tsAtP vecProj poses 0 ∨ target = tsAtP vecProj poses (poses.length - 1)) →
      (∃ r, findNeighborPoseIndices poses target = .ok r) ∧
      (∃ r, findNeighborPoseIndicesModern poses target = .ok (some r))) ∧
    (∀ err, interpolateTimedPose poses target = .error err ↔
      findNeighborPoseIndices poses target = .error err) ∧
    (∀ err, interpolateTimedPoseModern poses target = .error err ↔
      findNeighborPoseIndicesModern poses target = .error err) := by
  have hinr : ∀ hne : poses ≠ [],
      (target = tsAtP vecProj poses 0 ∨ target = tsAtP vecProj poses (poses.length - 1)) →
      tsAtP vecProj poses 0 ≤ target ∧ target ≤ tsAtP vecProj poses (poses.length - 1) := by
    intro hne hcase
    rcases hcase with h | h
    · rw [h]
      exact ⟨le_refl _, sortedLe_ts_le hs (Nat.zero_le _) (lastIdx_lt_length hne)⟩
    · rw [h]
      exact ⟨sortedLe_ts_le hs (Nat.zero_le _) (lastIdx_lt_length hne), le_refl _⟩
  refine ⟨tradLoc_empty_iff vecProj poses target, a2ModLoc_empty_iff poses target,
    tradLoc_out_iff vecProj poses target, a2ModLoc_out_iff poses target,
    tradLoc_ok_inRange_iff vecProj poses target hs, a2ModLoc_ok_inRange_iff poses target,
    ?_, tradTop_error_iff vecProj poses target, a2ModTop_error_iff poses target⟩
  intro hne hcase
  obtain ⟨h0, h1⟩ := hinr hne hcase
  exact ⟨tradLoc_ok_of_inRange hs hne h0 h1, a2ModLoc_ok_of_inRange hne h0 h1⟩

/-- C4 witness: on the demonstration trajectory (times 0,1,2), querying 5
fails with OutOfRange in both locators, and querying the first timestamp 0
succeeds in both. -/
theorem C4_witness :
    NonDecr demoTraj3 ∧
    findNeighborPoseIndices demoTraj3 5 = .error .outOfRange ∧
    findNeighborPoseIndicesModern demoTraj3 5 = .error .outOfRange ∧
    (∃ r, findNeighborPoseIndices demoTraj3 0 = .ok r) ∧
    (∃ r, findNeighborPoseIndicesModern demoTraj3 0 = .ok (some r)) := by
  have hs := demoTraj3_nonDecr
  have hrange : demoTraj3 ≠ [] ∧ ((5 : ℝ) < tsAtP vecProj demoTraj3 0 ∨
      tsAtP vecProj demoTraj3 (demoTraj3.length - 1) < 5) := by
    refine ⟨by simp [demoTraj3], Or.inr ?_⟩
    rw [demoTraj3_tsLast]
    norm_num
  have hfirst : (0 : ℝ) = tsAtP vecProj demoTraj3 0 ∨
      (0 : ℝ) = tsAtP vecProj demoTraj3 (demoTraj3.length - 1) := Or.inl demoTraj3_ts0.symm
  obtain ⟨c1, c2, c3, c4, c5, c6, c7, c8, c9⟩ := C4_error_contract demoTraj3 5 hs
  obtain ⟨d1, d2, d3, d4, d5, d6, d7, d8, d9⟩ := C4_error_contract demoTraj3 0 hs
  exact ⟨hs, c3.mpr hrange, c4.mpr hrange,
    (d7 (by simp [demoTraj3]) hfirst).1, (d7 (by simp [demoTraj3]) hfirst).2⟩

/-- C10: on a non-empty non-decreasing trajectory with an in-range query,
all three locators succeed (the traditional scan never reaches its terminal
defensive failure, the binary-search locators never return the empty
optional), and no top-level query surfaces the internal failed-to-find
error. -/
theorem C10_defensive_unreachable (poses : List TimedPose) (target : ℝ)
    (hs : NonDecr poses) (hne : poses ≠ [])
    (h0 : tsAtP vecProj poses 0 ≤ target)
    (h1 : target ≤ tsAtP vecProj poses (poses.length - 1)) :
    (∃ r, findNeighborPoseIndices poses target = .ok r) ∧
    (∃ r, findNeighborPoseIndicesModern poses target = .ok (some r)) ∧
    (∃ r, findNeighborPoseItersModern vecProj poses target = .ok (some r)) ∧
    interpolateTimedPose poses target ≠ .error .failedToFind ∧
    interpolateTimedPoseModern poses target ≠ .error .failedToFind ∧
    interpolateTimedPoseModernA3 vecProj poses target ≠ .error .failedToFind := by
  obtain ⟨r1, hr1⟩ := tradLoc_ok_of_inRange hs hne h0 h1
  obtain ⟨r2, hr2⟩ := a2ModLoc_ok_of_inRange hne h0 h1
  obtain ⟨r3, hr3⟩ := a3ModLoc_ok_of_inRange hne h0 h1
  refine ⟨⟨r1, hr1⟩, ⟨r2, hr2⟩, ⟨r3, hr3⟩, ?_, ?_, ?_⟩
  · intro h
    have h2 := (tradTop_error_iff vecProj poses target .failedToFind).mp h
    rw [hr1] at h2
    exact absurd h2 (by simp)
  · intro h
    have h2 := (a2ModTop_error_iff poses target .failedToFind).mp h
    rw [hr2] at h2
    exact absurd h2 (by simp)
  · intro h
    have h2 := (a3ModTop_error_iff vecProj poses target .failedToFind).mp h
    rw [hr3] at h2
    exact absurd h2 (by simp)

/-- C10 witness: the demonstration trajectory (times 0,1,2) queried at the
in-range time 1/2. -/
theorem C10_witness :
    NonDecr demoTraj3 ∧ demoTraj3 ≠ [] ∧
    tsAtP vecProj demoTraj3 0 ≤ 1 / 2 ∧
    (1 / 2 : ℝ) ≤ tsAtP vecProj demoTraj3 (demoTraj3.length - 1) ∧
    interpolateTimedPose demoTraj3 (1 / 2) ≠ .error .failedToFind ∧
    interpolateTimedPoseModern demoTraj3 (1 / 2) ≠ .error .failedToFind ∧
    interpolateTimedPoseModernA3 vecProj demoTraj3 (1 / 2) ≠ .error .failedToFind := by
  have h0 : tsAtP vecProj demoTraj3 0 ≤ 1 / 2 := by
    rw [demoTraj3_ts0]
    norm_num
  have h1 : (1 / 2 : ℝ) ≤ tsAtP vecProj demoTraj3 (demoTraj3.length - 1) := by
    rw [demoTraj3_tsLast]
    norm_num
  obtain ⟨_, _, _, h4, h5, h6⟩ := C10_defensive_unreachable demoTraj3 (1 / 2)
    demoTraj3_nonDecr (by simp [demoTraj3]) h0 h1
  exact ⟨demoTraj3_nonDecr, by simp [demoTraj3], h0, h1, h4, h5, h6⟩

/-- C1 counterexample: on the strictly increasing trajectory with times
0, 1, 2, querying exactly the interior timestamp 1 makes the traditional
linear-scan locator return the pair (1, 2) — a Bracket whose left timestamp
EQUALS the query time — instead of the Exact(1) the claim requires for
every index whose timestamp equals the query. -/
theorem C1_counterexample :
    StrictIncr demoTraj3 ∧ tsAtP vecProj demoTraj3 1 = 1 ∧
    findNeighborPoseIndices demoTraj3 1 = .ok (1, 2) ∧
    ¬ tsAtP vecProj demoTraj3 1 < 1 :=
  ⟨demoTraj3_strict, demoTraj3_ts1, demoTraj3_locTrad, by rw [demoTraj3_ts1]; exact lt_irrefl _⟩

/-- C1 (amended): on a non-empty strictly increasing trajectory with an
in-range query, the modern binary-search locator satisfies the claim in
full: it returns Exact(i) whenever timestamp i equals the query, and
otherwise a strict bracket (i, i+1). The traditional linear-scan locator
satisfies it only away from interior exact hits: it returns Exact at the
first and last timestamps and a strict bracket when no timestamp equals the
query; at an interior exact hit it returns (i, i+1) with the left timestamp
equal to the query (see the counterexample). -/
theorem C1_amended (poses : List TimedPose) (target : ℝ)
    (hs : StrictIncr poses) (hne : poses ≠ [])
    (hlo : tsAtP vecProj poses 0 ≤ target)
    (hhi : target ≤ tsAtP vecProj poses (poses.length - 1)) :
    ((∀ i, i < poses.length → tsAtP vecProj poses i = target →
        findNeighborPoseIndicesModern poses target = .ok (some (i, i))) ∧
     ((∀ i, i < poses.length → tsAtP vecProj poses i ≠ target) →
        ∃ i, i + 1 < poses.length ∧ tsAtP vecProj poses i < target ∧
          target < tsAtP vecProj poses (i + 1) ∧
          findNeighborPoseIndicesModern poses target = .ok (some (i, i + 1)))) ∧
    ((target = tsAtP vecProj poses 0 → findNeighborPoseIndices poses target = .ok (0, 0)) ∧
     (target = tsAtP vecProj poses (poses.length - 1) →
        findNeighborPoseIndices poses target = .ok (poses.length - 1, poses.length - 1)) ∧
     ((∀ i, i < poses.length → tsAtP vecProj poses i ≠ target) →
        ∃ i, i + 1 < poses.length ∧ tsAtP vecProj poses i < target ∧
          target < tsAtP vecProj poses (i + 1) ∧
          findNeighborPoseIndices poses target = .ok (i, i + 1))) := by
  refine ⟨⟨fun i hi hts => a2ModLoc_exact hs hi hts, fun hnohit => ?_⟩,
    fun hf => by rw [hf]; exact tradLoc_front (strict_sortedLe hs) hne,
    fun hb => by rw [hb]; exact tradLoc_back hs hne, fun hnohit => ?_⟩
  · obtain ⟨hm1, hm2, hm3, hm4, hmod⟩ := a2ModLoc_bracket hne hlo hhi hnohit
    refine ⟨lowerBoundIdxP vecProj target poses - 1, by omega, hm3, ?_, ?_⟩
    · rwa [Nat.sub_add_cancel hm1]
    · rw [Nat.sub_add_cancel hm1]
      exact hmod
  · obtain ⟨⟨a, b⟩, htrad⟩ :=
      tradLoc_ok_of_inRange (strict_sortedLe hs) hne hlo hhi
    rcases tradLoc_sound htrad with ⟨_, hcase⟩ | ⟨hb2, hlt2, hle2, hlt3, _, _⟩
    · exfalso
      rcases hcase with ⟨_, hcon⟩ | ⟨_, hcon⟩
      · exact hnohit 0 (List.length_pos.mpr hne) hcon.symm
      · exact hnohit (poses.length - 1) (lastIdx_lt_length hne) hcon.symm
    · have hstrict : tsAtP vecProj poses a < target :=
        lt_of_le_of_ne hle2 (hnohit a (by omega))
      exact ⟨a, hlt2, hstrict, hlt3, by rw [← hb2]; exact htrad⟩

/-- C1 witness: the demonstration trajectory (times 0,1,2): the modern
locator returns Exact(1,1) at the interior timestamp 1. -/
theorem C1_witness :
    StrictIncr demoTraj3 ∧ demoTraj3 ≠ [] ∧
    tsAtP vecProj demoTraj3 0 ≤ 1 ∧
    (1 : ℝ) ≤ tsAtP vecProj demoTraj3 (demoTraj3.length - 1) ∧
    findNeighborPoseIndicesModern demoTraj3 1 = .ok (some (1, 1)) := by
  have h0 : tsAtP vecProj demoTraj3 0 ≤ 1 := by
    rw [demoTraj3_ts0]
    norm_num
  have h1 : (1 : ℝ) ≤ tsAtP vecProj demoTraj3 (demoTraj3.length - 1) := by
    rw [demoTraj3_tsLast]
    norm_num
  refine ⟨demoTraj3_strict, by simp [demoTraj3], h0, h1, ?_⟩
  exact (C1_amended demoTraj3 1 demoTraj3_strict (by simp [demoTraj3]) h0 h1).1.1 1
    (by simp [demoTraj3]) demoTraj3_ts1

/-- C2 counterexample: on the strictly increasing trajectory whose samples
all store the non-unit orientation (2,0,0,0), querying the interior
timestamp 1 makes the traditional top-level query interpolate with factor 0
(its locator returns the Bracket (1,2) instead of Exact), which renormalizes
the orientation: the returned pose carries (1,0,0,0), not the stored
(2,0,0,0) — so the result is not bit-identical to the stored pose. -/
theorem C2_counterexample :
    StrictIncr demoTrajC2 ∧
    tsAtP vecProj demoTrajC2 1 = 1 ∧
    (demoTrajC2.getD 1 default).pose.orientation = ⟨2, 0, 0, 0⟩ ∧
    interpolateTimedPose demoTrajC2 1 = .ok ⟨1, ⟨⟨0, 0, 0⟩, ⟨1, 0, 0, 0⟩⟩⟩ ∧
    ((⟨1, 0, 0, 0⟩ : Quaternion) ≠ ⟨2, 0, 0, 0⟩) :=
  ⟨demoTrajC2_strict, demoTrajC2_ts1, by norm_num [demoTrajC2, demoPoseQ2],
   demoTrajC2_topTrad, by norm_num [Quaternion.mk.injEq]⟩

/-- C2 (amended): on a strictly increasing trajectory, the modern top-level
query returns every stored sample unchanged when queried at its timestamp;
the traditional top-level query does so at the first and last samples (at
interior samples it interpolates with factor 0, which can renormalize a
non-unit orientation, see the counterexample). -/
theorem C2_amended (poses : List TimedPose) (hs : StrictIncr poses) :
    (∀ i, i < poses.length →
      interpolateTimedPoseModern poses (tsAtP vecProj poses i) =
        .ok (poses.getD i default)) ∧
    (poses ≠ [] →
      interpolateTimedPose poses (tsAtP vecProj poses 0) = .ok (poses.getD 0 default) ∧
      interpolateTimedPose poses (tsAtP vecProj poses (poses.length - 1)) =
        .ok (poses.getD (poses.length - 1) default)) := by
  constructor
  · intro i hi
    exact a2ModTop_exact (a2ModLoc_exact hs hi rfl)
  · intro hne
    exact ⟨tradTop_exact (tradLoc_front (strict_sortedLe hs) hne),
      tradTop_exact (tradLoc_back hs hne)⟩

/-- C2 witness: the modern query on the demonstration trajectory returns the
stored interior sample at its own timestamp 1. -/
theorem C2_witness :
    StrictIncr demoTraj3 ∧ (1 : ℕ) < demoTraj3.length ∧
    interpolateTimedPoseModern demoTraj3 1 = .ok ⟨1, demoPose⟩ := by
  have happ := (C2_amended demoTraj3 demoTraj3_strict).1 1 (by simp [demoTraj3])
  rw [demoTraj3_ts1] at happ
  have hgd : demoTraj3.getD 1 default = ⟨1, demoPose⟩ := by norm_num [demoTraj3]
  rw [hgd] at happ
  exact ⟨demoTraj3_strict, by simp [demoTraj3], happ⟩

/-- C5 counterexample: the a2 traditional top-level query has no near-zero
denominator guard: on a strictly increasing trajectory whose first gap is
1e-10 (< 1e-9), querying inside that gap performs the division (factor 1/2)
and returns the blended position (1/2,0,0), not the earlier sample's
position (0,0,0) as the claim requires. -/
theorem C5_counterexample :
    StrictIncr demoTrajC5 ∧
    findNeighborPoseIndices demoTrajC5 (1 / 20000000000) = .ok (0, 1) ∧
    tsAtP vecProj demoTrajC5 1 - tsAtP vecProj demoTrajC5 0 < 1e-9 ∧
    interpolateTimedPose demoTrajC5 (1 / 20000000000) =
      .ok ⟨1 / 20000000000, ⟨⟨1 / 2, 0, 0⟩, ⟨1, 0, 0, 0⟩⟩⟩ ∧
    (demoTrajC5.getD 0 default).pose.position = ⟨0, 0, 0⟩ ∧
    ((⟨1 / 2, 0, 0⟩ : Vector3) ≠ ⟨0, 0, 0⟩) :=
  ⟨demoTrajC5_strict, demoTrajC5_locTrad, demoTrajC5_gap, demoTrajC5_topTrad,
   by norm_num [demoTrajC5], by norm_num [Vector3.mk.injEq]⟩

/-- C5 (amended): only the a3 modern top-level query guards the near-zero
denominator: whenever its locator returns a Bracket (i,j) whose timestamps
differ by less than 1e-9 in absolute value, it returns the earlier sample i
directly, without dividing or calling the pose interpolator, and does not
fail; the a2 top-level queries perform the division (see the
counterexample). -/
theorem C5_amended {α : Type} [Inhabited α] (pr : ElemProj α) (poses : List α)
    (target : ℝ) (i j : ℕ)
    (h : findNeighborPoseItersModern pr poses target = .ok (some (i, j)))
    (hij : i ≠ j)
    (hguard : abs (tsAtP pr poses j - tsAtP pr poses i) < 1e-9) :
    interpolateTimedPoseModernA3 pr poses target = .ok (tpAtP pr poses i) :=
  a3ModTop_bracket_guard h hij hguard

/-- C5 witness: the a3 modern query on the trajectory with a 1e-10 first
gap returns the earlier sample for a query inside that gap. -/
theorem C5_witness :
    findNeighborPoseItersModern vecProj demoTrajC5 (1 / 20000000000) =
      .ok (some (0, 1)) ∧
    (0 : ℕ) ≠ 1 ∧
    abs (tsAtP vecProj demoTrajC5 1 - tsAtP vecProj demoTrajC5 0) < 1e-9 ∧
    interpolateTimedPoseModernA3 vecProj demoTrajC5 (1 / 20000000000) =
      .ok ⟨0, ⟨⟨0, 0, 0⟩, ⟨1, 0, 0, 0⟩⟩⟩ := by
  have habs : abs (tsAtP vecProj demoTrajC5 1 - tsAtP vecProj demoTrajC5 0) < 1e-9 := by
    rw [demoTrajC5_ts0, demoTrajC5_ts1, abs_of_nonneg (by norm_num)]
    norm_num
  have happ := C5_amended vecProj demoTrajC5 (1 / 20000000000) 0 1 demoTrajC5_locA3Mod
    (by norm_num) habs
  have htp : tpAtP vecProj demoTrajC5 0 = ⟨0, ⟨⟨0, 0, 0⟩, ⟨1, 0, 0, 0⟩⟩⟩ := by
    norm_num [tpAtP, vecProj, demoTrajC5]
  rw [htp] at happ
  exact ⟨demoTrajC5_locA3Mod, by norm_num, habs, happ⟩

/-- C3 counterexample: even on a strictly increasing trajectory, the
linear-scan and binary-search a3 locators disagree at an interior exact
hit: at query time 1 the scan returns the Bracket (1,2) while the binary
search returns Exact (1,1); with the stored non-unit orientation (2,0,0,0)
the two top-level queries then return different poses, refuting the claimed
agreement between the linear-scan fallback and the binary search (stated
for all non-decreasing trajectories). -/
theorem C3_counterexample :
    StrictIncr demoTrajC2 ∧
    findNeighborPoseIters vecProj demoTrajC2 1 = .ok (1, 2) ∧
    findNeighborPoseItersModern vecProj demoTrajC2 1 = .ok (some (1, 1)) ∧
    interpolateTimedPoseIters vecProj demoTrajC2 1 =
      .ok ⟨1, ⟨⟨0, 0, 0⟩, ⟨1, 0, 0, 0⟩⟩⟩ ∧
    interpolateTimedPoseModernA3 vecProj demoTrajC2 1 = .ok ⟨1, demoPoseQ2⟩ ∧
    (⟨1, ⟨⟨0, 0, 0⟩, ⟨1, 0, 0, 0⟩⟩⟩ : TimedPose) ≠ ⟨1, demoPoseQ2⟩ :=
  ⟨demoTrajC2_strict, demoTrajC2_locTrad, demoTrajC2_locA3Mod, demoTrajC2_topTrad,
   demoTrajC2_topA3Mod,
   by norm_num [demoPoseQ2, TimedPose.mk.injEq, Pose.mk.injEq, Quaternion.mk.injEq]⟩

/-- C3 (amended): for a trajectory with strictly increasing timestamps:
(1) the a3 modern query returns identical results on the sequence backing
and on the timestamp-keyed map built from it (strictness is needed: a map
collapses tied timestamps); (2) for query times not equal to any interior
timestamp the linear-scan and binary-search locators return the same
bracketing/exact outcome; (3) for such query times, when moreover every
adjacent gap is at least 1e-9 (so the a3 modern denominator guard, absent
from the scan-based top, cannot fire), the two top-level queries return
identical results. -/
theorem C3_amended (poses : List TimedPose) (target : ℝ) (hs : StrictIncr poses) :
    (interpolateTimedPoseModernA3 mapProj (buildPoseMap poses) target =
      interpolateTimedPoseModernA3 vecProj poses target) ∧
    ((∀ k, 0 < k → k + 1 < poses.length → tsAtP vecProj poses k ≠ target) →
      findNeighborPoseItersModern vecProj poses target =
        (findNeighborPoseIters vecProj poses target).map some) ∧
    ((∀ k, 0 < k → k + 1 < poses.length → tsAtP vecProj poses k ≠ target) →
     (∀ k, k + 1 < poses.length →
        1e-9 ≤ tsAtP vecProj poses (k + 1) - tsAtP vecProj poses k) →
      interpolateTimedPoseModernA3 vecProj poses target =
        interpolateTimedPoseIters vecProj poses target) := by
  refine ⟨?_, fun hni => tradLoc_agree hs hni, fun hni hgap => top_agree hs hni hgap⟩
  rw [buildPoseMap_map hs]
  exact a3ModTop_map mapProj toKV (fun p => rfl) (fun p => rfl) rfl poses target

/-- C3 witness: the demonstration trajectory (times 0,1,2) queried at 1/2:
the map-backed and sequence-backed a3 modern queries agree, and the
scan-based and binary-search tops agree. -/
theorem C3_witness :
    StrictIncr demoTraj3 ∧
    (∀ k, 0 < k → k + 1 < demoTraj3.length → tsAtP vecProj demoTraj3 k ≠ 1 / 2) ∧
    (∀ k, k + 1 < demoTraj3.length →
      1e-9 ≤ tsAtP vecProj demoTraj3 (k + 1) - tsAtP vecProj demoTraj3 k) ∧
    interpolateTimedPoseModernA3 mapProj (buildPoseMap demoTraj3) (1 / 2) =
      interpolateTimedPoseModernA3 vecProj demoTraj3 (1 / 2) ∧
    interpolateTimedPoseModernA3 vecProj demoTraj3 (1 / 2) =
      interpolateTimedPoseIters vecProj demoTraj3 (1 / 2) := by
  have hlen : demoTraj3.length = 3 := by simp [demoTraj3]
  have hni : ∀ k, 0 < k → k + 1 < demoTraj3.length →
      tsAtP vecProj demoTraj3 k ≠ 1 / 2 := by
    intro k hk1 hk2
    rw [hlen] at hk2
    have hk : k = 1 := by omega
    subst hk
    rw [demoTraj3_ts1]
    norm_num
  have hgap : ∀ k, k + 1 < demoTraj3.length →
      1e-9 ≤ tsAtP vecProj demoTraj3 (k + 1) - tsAtP vecProj demoTraj3 k := by
    intro k hk
    rw [hlen] at hk
    have : k = 0 ∨ k = 1 := by omega
    rcases this with rfl | rfl <;>
      norm_num [tsAtP, vecProj, demoTraj3]
  obtain ⟨h1, h2, h3⟩ := C3_amended demoTraj3 (1 / 2) demoTraj3_strict
  exact ⟨demoTraj3_strict, hni, hgap, h1, h3 hni hgap⟩

end Robotics
